import Mathlib

/-!
auth-proxy: the session-gated reverse-proxy pipeline.

A shallow embedding of `internal/auth/auth.go` and `internal/handlers/handlers.go`
together with the parts of the Go libraries they call (`net/url`, `path`,
`net/http`, `gorilla/sessions`), followed by the properties of the credential
validator, the session manager, the auth gate and the login/logout handlers.

Go strings are byte sequences, so they are modelled as lists of bytes.  Library
behaviour that is not determined by the repository (bcrypt, the secure-cookie
codec, the embedded login page, the escaping loop of `template.JSEscape`, the
authority part of `url.Parse`, the clock) is taken as a parameter, so every theorem holds for all
behaviours of those parts.
-/

set_option autoImplicit false

/-! ## Go strings -/

/-- A Go `byte`. -/
abbrev Byte := Fin 256

/-- A Go `string`: an immutable sequence of bytes. -/
abbrev GoString := List Byte

/-- The bytes (UTF-8) of a string constant of the source. -/
def str (s : String) : GoString :=
  s.toList.flatMap (fun c => (String.utf8EncodeChar c).map (fun b => b.val))

/-- The byte of an ASCII character constant of the source. -/
def ch (c : Char) : Byte := Fin.ofNat c.toNat

namespace strings

/-- Go `strings.HasPrefix(s, p)`. -/
def startsWith (s p : GoString) : Bool := p.isPrefixOf s

/-- Go `strings.HasSuffix(s, p)`. -/
def endsWith (s p : GoString) : Bool := p.isSuffixOf s

/-- Go `strings.Cut(s, sep)` for a one-byte separator: the text before the first
`sep`, the text after it, and whether `sep` was found. -/
def Cut : GoString → Byte → GoString × GoString × Bool
  | [], _ => ([], [], false)
  | c :: cs, sep =>
    if c = sep then ([], cs, true)
    else
      let r := Cut cs sep
      (c :: r.1, r.2.1, r.2.2)

/-- Go `strings.Contains(s, sep)` for a one-byte separator. -/
def Contains (s : GoString) (sep : Byte) : Bool := s.contains sep

/-- Go `strings.Count(s, sep)` for a one-byte separator. -/
def Count (s : GoString) (sep : Byte) : Nat := s.count sep

/-- Go `strings.ToLower` on ASCII text. -/
def ToLower (s : GoString) : GoString :=
  s.map (fun c => if ch 'A' ≤ c ∧ c ≤ ch 'Z' then Fin.ofNat (c.val + 32) else c)

/-- Go `strings.Replace(s, old, new, 1)` for a non-empty `old`: the leftmost
occurrence of `old` is replaced, and `s` is returned unchanged when there is none. -/
def ReplaceFirst (s old new : GoString) : GoString :=
  match s with
  | [] => []
  | c :: cs =>
    if old.isPrefixOf (c :: cs) then new ++ (c :: cs).drop old.length
    else c :: ReplaceFirst cs old new

end strings

/-! ## net/url: escaping -/

namespace url

/-- The `encoding` modes of `net/url`. -/
inductive encoding
  | encodePath
  | encodePathSegment
  | encodeHost
  | encodeZone
  | encodeUserPassword
  | encodeQueryComponent
  | encodeFragment
  deriving DecidableEq, Repr

open encoding

/-- Go `ishex`. -/
def ishex (c : Byte) : Bool :=
  (ch '0' ≤ c && c ≤ ch '9') || (ch 'a' ≤ c && c ≤ ch 'f') || (ch 'A' ≤ c && c ≤ ch 'F')

/-- Go `unhex`. -/
def unhex (c : Byte) : Byte :=
  if ch '0' ≤ c ∧ c ≤ ch '9' then Fin.ofNat (c.val - 48)
  else if ch 'a' ≤ c ∧ c ≤ ch 'f' then Fin.ofNat (c.val - 97 + 10)
  else if ch 'A' ≤ c ∧ c ≤ ch 'F' then Fin.ofNat (c.val - 65 + 10)
  else 0

/-- Go `upperhex[n]`, the table `"0123456789ABCDEF"`. -/
def upperhex (n : Nat) : Byte := (str "0123456789ABCDEF").getD n 0

/-- The byte `unhex(a)<<4 | unhex(b)`. -/
def unhexPair (a b : Byte) : Byte :=
  Fin.ofNat (((unhex a).val * 16) % 256 ||| (unhex b).val)

/-- Go `shouldEscape(c, mode)`: whether the byte must be percent-encoded when it
appears in the given part of a URL. -/
def shouldEscape (c : Byte) (mode : encoding) : Bool :=
  if (ch 'a' ≤ c ∧ c ≤ ch 'z') ∨ (ch 'A' ≤ c ∧ c ≤ ch 'Z') ∨ (ch '0' ≤ c ∧ c ≤ ch '9') then
    false
  else if (mode = encodeHost ∨ mode = encodeZone) ∧
      c ∈ [ch '!', ch '$', ch '&', 39, ch '(', ch ')', ch '*', ch '+', ch ',', ch ';',
           ch '=', ch ':', ch '[', ch ']', ch '<', ch '>', 34] then
    false
  else if c ∈ [ch '-', ch '_', ch '.', ch '~'] then
    false
  else if c ∈ [ch '$', ch '&', ch '+', ch ',', ch '/', ch ':', ch ';', ch '=', ch '?',
               ch '@'] then
    match mode with
    | encodePath => c = ch '?'
    | encodePathSegment => c = ch '/' || c = ch ';' || c = ch ',' || c = ch '?'
    | encodeUserPassword => c = ch '@' || c = ch '/' || c = ch '?' || c = ch ':'
    | encodeQueryComponent => true
    | encodeFragment => false
    | _ => true
  else if mode = encodeFragment ∧ c ∈ [ch '!', ch '(', ch ')', ch '*'] then
    false
  else
    true

/-- The general loop of Go `escape`: `' '` becomes `'+'` in a query component, any
other byte that must be escaped becomes `%XX`, the rest is copied. -/
def escapeLoop (mode : encoding) : GoString → GoString
  | [] => []
  | c :: cs =>
    if c = ch ' ' ∧ mode = encodeQueryComponent then ch '+' :: escapeLoop mode cs
    else if shouldEscape c mode then
      ch '%' :: upperhex (c.val / 16) :: upperhex (c.val % 16) :: escapeLoop mode cs
    else c :: escapeLoop mode cs

/-- Go `escape(s, mode)`: count the bytes to rewrite, return `s` itself when there
are none, only replace spaces when no byte needs `%XX`, and otherwise run the
general loop. -/
def escape (s : GoString) (mode : encoding) : GoString :=
  let spaceCount :=
    (s.filter (fun c => shouldEscape c mode && (c = ch ' ' && mode = encodeQueryComponent))).length
  let hexCount :=
    (s.filter (fun c => shouldEscape c mode && !(c = ch ' ' && mode = encodeQueryComponent))).length
  if spaceCount = 0 ∧ hexCount = 0 then s
  else if hexCount = 0 then s.map (fun c => if c = ch ' ' then ch '+' else c)
  else escapeLoop mode s

/-- Go `url.QueryEscape`. -/
def QueryEscape (s : GoString) : GoString := escape s encodeQueryComponent

/-- The first loop of Go `unescape`: validates every `%` sequence and returns the
number of `%` and whether a `+` has to be rewritten; `none` is the `EscapeError`
or `InvalidHostError` return. -/
def unescapeScan (mode : encoding) : GoString → Nat → Bool → Option (Nat × Bool)
  | [], n, hasPlus => some (n, hasPlus)
  | c :: rest, n, hasPlus =>
    if c = ch '%' then
      match rest with
      | h1 :: h2 :: rest2 =>
        if !ishex h1 || !ishex h2 then none
        else if mode = encodeHost ∧ (unhex h1).val < 8 ∧ [c, h1, h2] ≠ str "%25" then none
        else if mode = encodeZone ∧ [c, h1, h2] ≠ str "%25" ∧ unhexPair h1 h2 ≠ ch ' ' ∧
            shouldEscape (unhexPair h1 h2) encodeHost then none
        else unescapeScan mode rest2 (n + 1) hasPlus
      | _ => none
    else if c = ch '+' then
      unescapeScan mode rest n (mode = encodeQueryComponent)
    else if (mode = encodeHost ∨ mode = encodeZone) ∧ c.val < 128 ∧ shouldEscape c encodeHost then
      none
    else unescapeScan mode rest n hasPlus

/-- The second loop of Go `unescape`, run on text the first loop accepted. -/
def unescapeLoop (mode : encoding) : GoString → GoString
  | [] => []
  | c :: rest =>
    if c = ch '%' then
      match rest with
      | h1 :: h2 :: rest2 => unhexPair h1 h2 :: unescapeLoop mode rest2
      | _ => []
    else if c = ch '+' then
      (if mode = encodeQueryComponent then ch ' ' else ch '+') :: unescapeLoop mode rest
    else c :: unescapeLoop mode rest

/-- Go `unescape(s, mode)`; `none` stands for the error return. -/
def unescape (s : GoString) (mode : encoding) : Option GoString :=
  match unescapeScan mode s 0 false with
  | none => none
  | some (n, hasPlus) => if n = 0 ∧ !hasPlus then some s else some (unescapeLoop mode s)

/-- Go `url.QueryUnescape`. -/
def QueryUnescape (s : GoString) : Option GoString := unescape s encodeQueryComponent


/-! ## net/url: URLs and query strings -/

/-- Go `url.Userinfo`. -/
structure Userinfo where
  username : GoString
  password : GoString
  passwordSet : Bool
  deriving DecidableEq, Repr

/-- Go `(*Userinfo).String`. -/
def Userinfo.String (u : Userinfo) : GoString :=
  let s := escape u.username encodeUserPassword
  if u.passwordSet then s ++ str ":" ++ escape u.password encodeUserPassword else s

/-- Go `url.URL`. -/
structure URL where
  Scheme : GoString := []
  Opaque : GoString := []
  User : Option Userinfo := none
  Host : GoString := []
  Path : GoString := []
  RawPath : GoString := []
  OmitHost : Bool := false
  ForceQuery : Bool := false
  RawQuery : GoString := []
  Fragment : GoString := []
  RawFragment : GoString := []
  deriving DecidableEq, Repr

/-- Go `validEncoded(s, mode)`. -/
def validEncoded (s : GoString) (mode : encoding) : Bool :=
  s.all (fun c =>
    if c ∈ [ch '!', ch '$', ch '&', 39, ch '(', ch ')', ch '*', ch '+', ch ',', ch ';',
            ch '=', ch ':', ch '@'] then true
    else if c ∈ [ch '[', ch ']'] then true
    else if c = ch '%' then true
    else !shouldEscape c mode)

/-- Go `(*URL).EscapedPath`. -/
def URL.EscapedPath (u : URL) : GoString :=
  if u.RawPath ≠ [] ∧ validEncoded u.RawPath encodePath ∧
      unescape u.RawPath encodePath = some u.Path then u.RawPath
  else if u.Path = str "*" then str "*"
  else escape u.Path encodePath

/-- Go `(*URL).EscapedFragment`. -/
def URL.EscapedFragment (u : URL) : GoString :=
  if u.RawFragment ≠ [] ∧ validEncoded u.RawFragment encodeFragment ∧
      unescape u.RawFragment encodeFragment = some u.Fragment then u.RawFragment
  else escape u.Fragment encodeFragment

/-- The part of Go `(*URL).String` before the query: scheme, then either the opaque
part or authority and path. -/
def URL.stringHead (u : URL) : GoString :=
  let buf0 : GoString := if u.Scheme ≠ [] then u.Scheme ++ str ":" else []
  if u.Opaque ≠ [] then buf0 ++ u.Opaque
  else
    let buf1 : GoString :=
      if u.Scheme ≠ [] ∨ u.Host ≠ [] ∨ u.User.isSome then
        if u.OmitHost ∧ u.Host = [] ∧ u.User.isNone then buf0
        else
          let b1 := if u.Host ≠ [] ∨ u.Path ≠ [] ∨ u.User.isSome then buf0 ++ str "//" else buf0
          let b2 := match u.User with
            | some ui => b1 ++ ui.String ++ str "@"
            | none => b1
          if u.Host ≠ [] then b2 ++ escape u.Host encodeHost else b2
      else buf0
    let path := u.EscapedPath
    let buf2 : GoString :=
      if path ≠ [] ∧ path.head? ≠ some (ch '/') ∧ u.Host ≠ [] then buf1 ++ str "/" else buf1
    let buf3 : GoString :=
      if buf2 = [] ∧ strings.Contains (strings.Cut path (ch '/')).1 (ch ':') then buf2 ++ str "./"
      else buf2
    buf3 ++ path

/-- Go `(*URL).String`. -/
def URL.String (u : URL) : GoString :=
  let b := u.stringHead
  let b := if u.ForceQuery ∨ u.RawQuery ≠ [] then b ++ str "?" ++ u.RawQuery else b
  if u.Fragment ≠ [] then b ++ str "#" ++ u.EscapedFragment else b

/-- The loop of Go `getScheme`, at index `i` of `rawURL` with `rest = rawURL[i:]`. -/
def getSchemeLoop (rawURL : GoString) : GoString → Nat → Option (GoString × GoString)
  | [], _ => some ([], rawURL)
  | c :: rest, i =>
    if (ch 'a' ≤ c ∧ c ≤ ch 'z') ∨ (ch 'A' ≤ c ∧ c ≤ ch 'Z') then
      getSchemeLoop rawURL rest (i + 1)
    else if (ch '0' ≤ c ∧ c ≤ ch '9') ∨ c = ch '+' ∨ c = ch '-' ∨ c = ch '.' then
      if i = 0 then some ([], rawURL) else getSchemeLoop rawURL rest (i + 1)
    else if c = ch ':' then
      if i = 0 then none else some (rawURL.take i, rest)
    else some ([], rawURL)

/-- Go `getScheme(rawURL)`: the scheme and the rest, `none` for
"missing protocol scheme". -/
def getScheme (rawURL : GoString) : Option (GoString × GoString) :=
  getSchemeLoop rawURL rawURL 0

/-- Go `stringContainsCTLByte`. -/
def stringContainsCTLByte (s : GoString) : Bool :=
  s.any (fun b => b < ch ' ' || b = 127)

/-- Go `(*URL).setPath`. -/
def URL.setPath (u : URL) (p : GoString) : Option URL :=
  match unescape p encodePath with
  | none => none
  | some path =>
    some { u with Path := path, RawPath := if p = escape path encodePath then [] else p }

/-- Go `(*URL).setFragment`. -/
def URL.setFragment (u : URL) (f : GoString) : Option URL :=
  match unescape f encodeFragment with
  | none => none
  | some frag =>
    some { u with Fragment := frag,
                  RawFragment := if f = escape frag encodeFragment then [] else f }

/-- The behaviour of Go `parseAuthority` (userinfo and host validation), which the
repository does not determine: user and host, or `none` for an error. -/
abbrev AuthorityParser := GoString → Option (Option Userinfo × GoString)

/-- Go `parse(rawURL, viaRequest)`; `none` stands for the error return. -/
def parse (pa : AuthorityParser) (rawURL : GoString) (viaRequest : Bool) : Option URL :=
  if stringContainsCTLByte rawURL then none
  else if rawURL = [] ∧ viaRequest then none
  else if rawURL = str "*" then some { Path := str "*" }
  else
    match getScheme rawURL with
    | none => none
    | some (scheme, rest0) =>
      let u : URL := { Scheme := strings.ToLower scheme }
      let forceQuery := strings.endsWith rest0 (str "?") && strings.Count rest0 (ch '?') = 1
      let rest := if forceQuery then rest0.dropLast else (strings.Cut rest0 (ch '?')).1
      let u : URL :=
        if forceQuery then { u with ForceQuery := true }
        else { u with RawQuery := (strings.Cut rest0 (ch '?')).2.1 }
      if !strings.startsWith rest (str "/") ∧ u.Scheme ≠ [] then
        some { u with Opaque := rest }
      else if !strings.startsWith rest (str "/") ∧ viaRequest then none
      else if !strings.startsWith rest (str "/") ∧
          strings.Contains (strings.Cut rest (ch '/')).1 (ch ':') then none
      else if (u.Scheme ≠ [] ∨ (!viaRequest ∧ !strings.startsWith rest (str "///"))) ∧
          strings.startsWith rest (str "//") then
        let after := rest.drop 2
        let authority := (strings.Cut after (ch '/')).1
        let rest := if strings.Contains after (ch '/') then after.drop authority.length else []
        match pa authority with
        | none => none
        | some (user, host) => URL.setPath { u with User := user, Host := host } rest
      else if u.Scheme ≠ [] ∧ strings.startsWith rest (str "/") then
        URL.setPath { u with OmitHost := true } rest
      else URL.setPath u rest

/-- Go `url.Parse`. -/
def Parse (pa : AuthorityParser) (rawURL : GoString) : Option URL :=
  let c := strings.Cut rawURL (ch '#')
  match parse pa c.1 false with
  | none => none
  | some u => if c.2.1 = [] then some u else u.setFragment c.2.1

/-- Go `url.ParseRequestURI`. -/
def ParseRequestURI (pa : AuthorityParser) (rawURL : GoString) : Option URL :=
  parse pa rawURL true

/-- Go `url.Values`, kept as the list of decoded pairs in the order they were added. -/
abbrev Values := List (GoString × GoString)

/-- Go `Values.Get`: the first value of the key, or the empty string. -/
def Values.Get (v : Values) (key : GoString) : GoString :=
  match v.find? (fun kv => kv.1 = key) with
  | some kv => kv.2
  | none => []

/-- The loop of Go `parseQuery`, bounded by the length of the query (every round
removes at least one byte); pairs that fail to decode are skipped. -/
def parseQueryLoop : Nat → GoString → Values
  | 0, _ => []
  | fuel + 1, query =>
    if query = [] then []
    else
      let c := strings.Cut query (ch '&')
      let key := c.1
      let query := c.2.1
      if strings.Contains key (ch ';') then parseQueryLoop fuel query
      else if key = [] then parseQueryLoop fuel query
      else
        let kv := strings.Cut key (ch '=')
        match QueryUnescape kv.1 with
        | none => parseQueryLoop fuel query
        | some k =>
          match QueryUnescape kv.2.1 with
          | none => parseQueryLoop fuel query
          | some v => (k, v) :: parseQueryLoop fuel query

/-- Go `(*URL).Query`: `ParseQuery(u.RawQuery)` with the error dropped. -/
def URL.Query (u : URL) : Values := parseQueryLoop u.RawQuery.length u.RawQuery

end url

/-! ## path -/

namespace path

/-- The backtracking of Go `path.Clean` on a `..` element: from write index `w`,
step back while `w > dotdot` and `out[w]` is not a slash. -/
def backtrack (out : GoString) (dotdot : Nat) : Nat → Nat
  | 0 => 0
  | w + 1 => if w + 1 > dotdot ∧ out.get? (w + 1) ≠ some (ch '/') then backtrack out dotdot w
             else w + 1

/-- The loop of Go `path.Clean`: `rest` is the unread part `path[r:]`, `out` the
bytes written so far (`out.w` is its length) and `dotdot` the index where `..`
must stop.  The fuel bounds the rounds; every round reads at least one byte. -/
def cleanLoop (rooted : Bool) : Nat → GoString → GoString → Nat → GoString
  | 0, _, out, _ => out
  | _ + 1, [], out, _ => out
  | fuel + 1, c :: rest, out, dotdot =>
    if c = ch '/' then cleanLoop rooted fuel rest out dotdot
    else if c = ch '.' ∧ (rest = [] ∨ rest.head? = some (ch '/')) then
      cleanLoop rooted fuel rest out dotdot
    else if c = ch '.' ∧ rest.head? = some (ch '.') ∧
        (rest.tail = [] ∨ rest.tail.head? = some (ch '/')) then
      if out.length > dotdot then
        cleanLoop rooted fuel rest.tail (out.take (backtrack out dotdot (out.length - 1))) dotdot
      else if !rooted then
        let out1 := if out.length > 0 then out ++ str "/" else out
        let out2 := out1 ++ str ".."
        cleanLoop rooted fuel rest.tail out2 out2.length
      else cleanLoop rooted fuel rest.tail out dotdot
    else
      let out1 :=
        if (rooted ∧ out.length ≠ 1) ∨ (!rooted ∧ out.length ≠ 0) then out ++ str "/" else out
      cleanLoop rooted fuel ((c :: rest).dropWhile (fun b => b ≠ ch '/'))
        (out1 ++ (c :: rest).takeWhile (fun b => b ≠ ch '/')) dotdot

/-- Go `path.Clean`. -/
def Clean (p : GoString) : GoString :=
  if p = [] then str "."
  else
    let rooted := p.head? = some (ch '/')
    let out :=
      if rooted then cleanLoop true p.length p.tail (str "/") 1
      else cleanLoop false p.length p [] 0
    if out = [] then str "." else out

/-- The directory part of Go `path.Split`: everything up to and including the last
slash. -/
def SplitDir (p : GoString) : GoString :=
  (p.reverse.dropWhile (fun b => b ≠ ch '/')).reverse

end path

/-! ## net/http -/

namespace http

/-- Go `http.Cookie`, the fields that `sessions.NewCookie` fills.  `Expires` is in
seconds since the epoch. -/
structure Cookie where
  Name : GoString
  Value : GoString
  Path : GoString
  Domain : GoString
  MaxAge : Int
  Expires : Option Int
  Secure : Bool
  HttpOnly : Bool
  deriving DecidableEq, Repr

/-- Go `http.Request` as a handler sees it: method, parsed request URL, the
parameters of a form body (in order) and the cookies of the `Cookie` header (in
order). -/
structure Request where
  Method : GoString
  URL : url.URL
  Body : url.Values := []
  Cookies : List (GoString × GoString) := []
  deriving DecidableEq, Repr

/-- The state of an `http.ResponseWriter` as handlers observe and change it: the
header map, the `Set-Cookie` lines (kept structured), the status once the header is
written, and the body written so far. -/
structure ResponseWriter where
  header : List (GoString × GoString) := []
  cookies : List Cookie := []
  status : Option Nat := none
  body : GoString := []
  deriving DecidableEq, Repr

/-- Go `http.HandlerFunc`: a handler turns the response writer it is given into the
response writer it leaves behind. -/
abbrev HandlerFunc := ResponseWriter → Request → ResponseWriter

/-- Go `Header.Get`. -/
def ResponseWriter.Get (w : ResponseWriter) (key : GoString) : Option GoString :=
  (w.header.find? (fun kv => kv.1 = key)).map (fun kv => kv.2)

/-- Go `Header.Set`. -/
def ResponseWriter.Set (w : ResponseWriter) (key value : GoString) : ResponseWriter :=
  { w with header := w.header.filter (fun kv => kv.1 ≠ key) ++ [(key, value)] }

/-- Go `ResponseWriter.WriteHeader`: the first status written stands. -/
def ResponseWriter.WriteHeader (w : ResponseWriter) (code : Nat) : ResponseWriter :=
  match w.status with
  | some _ => w
  | none => { w with status := some code }

/-- Go `ResponseWriter.Write`: writes the header with status 200 when it has not
been written, then appends to the body. -/
def ResponseWriter.Write (w : ResponseWriter) (b : GoString) : ResponseWriter :=
  let w := w.WriteHeader 200
  { w with body := w.body ++ b }

/-- Go `http.SetCookie` for a cookie with a valid name. -/
def SetCookie (w : ResponseWriter) (c : Cookie) : ResponseWriter :=
  { w with cookies := w.cookies ++ [c] }

/-- Go `(*Request).Cookie`: the value of the first cookie of that name. -/
def Request.Cookie (r : Request) (name : GoString) : Option GoString :=
  (r.Cookies.find? (fun kv => kv.1 = name)).map (fun kv => kv.2)

/-- Go `(*Request).PostForm` after `ParseForm`: the body parameters, read only for
POST, PUT and PATCH. -/
def Request.PostForm (r : Request) : url.Values :=
  if r.Method = str "POST" ∨ r.Method = str "PUT" ∨ r.Method = str "PATCH" then r.Body else []

/-- Go `(*Request).FormValue`: the first value of the key in `r.Form`, where the
body parameters come before the URL query parameters. -/
def Request.FormValue (r : Request) (key : GoString) : GoString :=
  url.Values.Get (r.PostForm ++ r.URL.Query) key

/-- Go `hexEscapeNonASCII`: bytes from 0x80 on become `%xx` in lower-case hex. -/
def hexEscapeNonASCII (s : GoString) : GoString :=
  s.flatMap (fun c =>
    if c.val ≥ 128 then
      [ch '%', (str "0123456789abcdef").getD (c.val / 16) 0,
       (str "0123456789abcdef").getD (c.val % 16) 0]
    else [c])

/-- Go `htmlEscape` of net/http. -/
def htmlEscape (s : GoString) : GoString :=
  s.flatMap (fun c =>
    if c = ch '&' then str "&amp;"
    else if c = ch '<' then str "&lt;"
    else if c = ch '>' then str "&gt;"
    else if c = 34 then str "&#34;"
    else if c = 39 then str "&#39;"
    else [c])

/-- Go `http.StatusText` for the codes the handlers use. -/
def StatusText (code : Nat) : GoString :=
  if code = 302 then str "Found"
  else if code = 500 then str "Internal Server Error"
  else []

/-- The URL that Go `http.Redirect` puts in `Location` (before
`hexEscapeNonASCII`): a target that parses with no scheme and no host is made
absolute against the request path and cleaned, any other target is left as is. -/
def redirectURL (pa : url.AuthorityParser) (r : Request) (target : GoString) : GoString :=
  match url.Parse pa target with
  | none => target
  | some u =>
    if u.Scheme = [] ∧ u.Host = [] then
      let oldpath := if r.URL.Path = [] then str "/" else r.URL.Path
      let t1 := if target = [] ∨ target.head? ≠ some (ch '/') then path.SplitDir oldpath ++ target
                else target
      let i := (strings.Cut t1 (ch '?')).1.length
      let t2 := if strings.Contains t1 (ch '?') then t1.take i else t1
      let query := if strings.Contains t1 (ch '?') then t1.drop i else []
      let trailing := strings.endsWith t2 (str "/")
      let t3 := path.Clean t2
      let t4 := if trailing ∧ !strings.endsWith t3 (str "/") then t3 ++ str "/" else t3
      t4 ++ query
    else target

/-- Go `http.Redirect(w, r, url, code)`. -/
def Redirect (pa : url.AuthorityParser) (w : ResponseWriter) (r : Request) (target : GoString)
    (code : Nat) : ResponseWriter :=
  let u := redirectURL pa r target
  let hadCT := (w.Get (str "Content-Type")).isSome
  let w := w.Set (str "Location") (hexEscapeNonASCII u)
  let w := if !hadCT ∧ (r.Method = str "GET" ∨ r.Method = str "HEAD") then
             w.Set (str "Content-Type") (str "text/html; charset=utf-8") else w
  let w := w.WriteHeader code
  if !hadCT ∧ r.Method = str "GET" then
    w.Write (str "<a href=\"" ++ htmlEscape u ++ str "\">" ++ StatusText code ++ str "</a>.\n" ++
      str "\n")
  else w

/-- Go `http.Error(w, error, code)`.  (From Go 1.23 on it also deletes the headers
`Content-Length`, `Content-Encoding`, `Etag` and `Last-Modified`, which no handler of
the repository sets.) -/
def Error (w : ResponseWriter) (error : GoString) (code : Nat) : ResponseWriter :=
  let w := w.Set (str "Content-Type") (str "text/plain; charset=utf-8")
  let w := w.Set (str "X-Content-Type-Options") (str "nosniff")
  let w := w.WriteHeader code
  w.Write (error ++ str "\n")

end http

/-! ## gorilla/sessions -/

namespace sessions

/-- A value stored in `Session.Values` (`interface{}`): a `bool`, a `string`, or a
value of any other type. -/
inductive Value
  | bool (b : Bool)
  | string (s : GoString)
  | other (tag : Nat)
  deriving DecidableEq, Repr

/-- The map `map[interface{}]interface{}` of `Session.Values`. -/
abbrev ValueMap := List (Value × Value)

/-- The read `m[k]`. -/
def ValueMap.get (m : ValueMap) (k : Value) : Option Value :=
  (m.find? (fun kv => kv.1 = k)).map (fun kv => kv.2)

/-- The assignment `m[k] = v`. -/
def ValueMap.set (m : ValueMap) (k v : Value) : ValueMap :=
  (k, v) :: m.filter (fun kv => kv.1 ≠ k)

/-- Go `sessions.Options`. -/
structure Options where
  Path : GoString
  Domain : GoString
  MaxAge : Int
  Secure : Bool
  HttpOnly : Bool
  deriving DecidableEq, Repr

/-- Go `sessions.Session`. -/
structure Session where
  name : GoString
  Values : ValueMap
  Options : Options
  IsNew : Bool
  deriving DecidableEq, Repr

/-- A Go `error`, kept as its message. -/
abbrev Error := GoString

/-- The secure-cookie codecs of a `CookieStore`, at the time of the request:
`Encode name values` is `securecookie.EncodeMulti` and `Decode name value` is
`securecookie.DecodeMulti`, which fails on a bad signature, a corrupt structure or
an expired timestamp.  Their behaviour is not determined by the repository.  A
failed decode leaves the destination map as it was, empty: securecookie checks the
signature and the timestamp before it deserialises the values. -/
structure Codec where
  Encode : GoString → ValueMap → Except Error GoString
  Decode : GoString → GoString → Except Error ValueMap

/-- Go `sessions.CookieStore`. -/
structure CookieStore where
  Codecs : Codec
  Options : Options

/-- Go `(*CookieStore).New`: a new session with a copy of the store options; when
the request carries the cookie, its value is decoded into `Values`, and a decode
error is returned together with the (still new, empty) session. -/
def CookieStore.New (s : CookieStore) (r : http.Request) (name : GoString) :
    Session × Option Error :=
  let session : Session := { name := name, Values := [], Options := s.Options, IsNew := true }
  match r.Cookie name with
  | none => (session, none)
  | some value =>
    match s.Codecs.Decode name value with
    | .ok values => ({ session with Values := values, IsNew := false }, none)
    | .error e => (session, some e)

/-- Go `(*CookieStore).Get` on a request whose session registry has no entry for
the name yet, which is the case for the one `Get` each handler of the repository
makes: the registry calls `New`. -/
def CookieStore.Get (s : CookieStore) (r : http.Request) (name : GoString) :
    Session × Option Error :=
  s.New r name

/-- Go `sessions.NewCookie`; `now` is `time.Now()` in seconds. -/
def NewCookie (now : Int) (name value : GoString) (options : Options) : http.Cookie :=
  { Name := name, Value := value, Path := options.Path, Domain := options.Domain,
    MaxAge := options.MaxAge, Secure := options.Secure, HttpOnly := options.HttpOnly,
    Expires := if options.MaxAge > 0 then some (now + options.MaxAge)
               else if options.MaxAge < 0 then some 1 else none }

/-- Go `(*Session).Save`, that is `(*CookieStore).Save`: encode the values and add
the cookie to the response, or return the encoding error and add nothing. -/
def CookieStore.Save (s : CookieStore) (now : Int) (w : http.ResponseWriter) (session : Session) :
    http.ResponseWriter × Option Error :=
  match s.Codecs.Encode session.name session.Values with
  | .error e => (w, some e)
  | .ok encoded => (http.SetCookie w (NewCookie now session.name encoded session.Options), none)

end sessions

/-! ## html/template -/

namespace template

/-- Go `jsIsSpecial`, on the bytes of a string: a backslash, a quote, `<`, `>`, `&`
and `=` are special, and so is every rune below the space or from `utf8.RuneSelf`
on, that is, every rune a byte from 0x80 on belongs to. -/
def jsIsSpecial (c : Byte) : Bool :=
  c = 92 || c = 39 || c = 34 || c = ch '<' || c = ch '>' || c = ch '&' || c = ch '=' ||
    c < ch ' ' || 128 ≤ c.val

/-- Go `template.JSEscapeString`: a string with no special rune is returned as it
is; any other goes through the escaping loop `JSEscape`, which is given. -/
def JSEscapeString (JSEscape : GoString → GoString) (s : GoString) : GoString :=
  if s.any jsIsSpecial then JSEscape s else s

end template

/-! ## internal/auth -/

namespace auth

open sessions

/-- The file `index.html` of the embedded `ui.DistDirFS`: it cannot be opened, it
cannot be read, or it has a content. -/
inductive DistFile
  | openError
  | readError
  | content (c : GoString)
  deriving DecidableEq, Repr

/-- The library and build-time behaviour the repository relies on without
determining it. -/
structure Lib where
  /-- Whether `bcrypt.CompareHashAndPassword(hash, password)` returns nil. -/
  bcryptMatches : GoString → GoString → Bool
  /-- The authority parser of `net/url`. -/
  parseAuthority : url.AuthorityParser
  /-- The clock `time.Now()`, in seconds. -/
  now : Int
  /-- The escaping loop `template.JSEscape`, which `template.JSEscapeString` runs on
  a string that has a special rune. -/
  JSEscape : GoString → GoString
  /-- The embedded login page. -/
  indexHTML : DistFile

/-- `Config` holds the authentication configuration. -/
structure Config where
  Username : GoString
  Password : GoString := []
  PasswordHash : GoString := []
  Target : GoString := []
  CookieSecret : GoString := []
  LoginTitle : GoString := []
  Port : GoString := []
  deriving DecidableEq, Repr

/-- `AuthProxy` handles authentication and proxy functionality. -/
structure AuthProxy where
  config : Config
  store : CookieStore
  proxy : http.HandlerFunc

/-- The result of running a wrapping handler: the response writer it leaves and the
calls it made to the wrapped handler, in order, each with its arguments. -/
structure Served where
  w : http.ResponseWriter
  calls : List (http.ResponseWriter × http.Request)
  deriving DecidableEq, Repr

/-- `GetConfig` returns the authentication configuration. -/
def AuthProxy.GetConfig (ap : AuthProxy) : Config := ap.config

/-- `GetProxy` returns the reverse proxy instance. -/
def AuthProxy.GetProxy (ap : AuthProxy) : http.HandlerFunc := ap.proxy

/-- `ValidateCredentials` validates username and password against configuration. -/
def AuthProxy.ValidateCredentials (lib : Lib) (ap : AuthProxy) (username password : GoString) :
    Bool :=
  if username ≠ ap.config.Username then false
  else if ap.config.PasswordHash ≠ [] then
    lib.bcryptMatches ap.config.PasswordHash password
  else password = ap.config.Password

/-- `CreateSession` creates a new authenticated session for the user. -/
def AuthProxy.CreateSession (lib : Lib) (ap : AuthProxy) (w : http.ResponseWriter)
    (r : http.Request) (username : GoString) : http.ResponseWriter × Option Error :=
  match ap.store.Get r (str "auth-session") with
  | (_, some err) => (w, some (str "failed to get session: " ++ err))
  | (session, none) =>
    let session := { session with
      Values := session.Values.set (.string (str "authenticated")) (.bool true) }
    let session := { session with
      Values := session.Values.set (.string (str "username")) (.string username) }
    match ap.store.Save lib.now w session with
    | (w, some err) => (w, some (str "failed to save session: " ++ err))
    | (w, none) => (w, none)

/-- `DestroySession` invalidates the current user session. -/
def AuthProxy.DestroySession (lib : Lib) (ap : AuthProxy) (w : http.ResponseWriter)
    (r : http.Request) : http.ResponseWriter × Option Error :=
  let session := (ap.store.Get r (str "auth-session")).1
  let session := { session with
    Values := session.Values.set (.string (str "authenticated")) (.bool false) }
  let session := { session with Options := { session.Options with MaxAge := -1 } }
  match ap.store.Save lib.now w session with
  | (w, some err) => (w, some (str "failed to destroy session: " ++ err))
  | (w, none) => (w, none)

/-- `IsAuthenticated` checks if the current request has a valid session. -/
def AuthProxy.IsAuthenticated (ap : AuthProxy) (r : http.Request) : Bool :=
  match ap.store.Get r (str "auth-session") with
  | (_, some _) => false
  | (session, none) =>
    match session.Values.get (.string (str "authenticated")) with
    | some (.bool authenticated) => authenticated
    | _ => false

/-- `RedirectToLogin` redirects unauthenticated requests to the login page. -/
def AuthProxy.RedirectToLogin (lib : Lib) (w : http.ResponseWriter) (r : http.Request) :
    http.ResponseWriter :=
  let redirectURL := str "/auth/login?redirect=" ++ url.QueryEscape r.URL.String
  http.Redirect lib.parseAuthority w r redirectURL 302

/-- `AuthMiddleware` wraps HTTP handlers with authentication checks; the run
records every call of `next`. -/
def AuthProxy.AuthMiddleware (lib : Lib) (ap : AuthProxy) (next : http.HandlerFunc)
    (w : http.ResponseWriter) (r : http.Request) : Served :=
  if !ap.IsAuthenticated r then
    { w := AuthProxy.RedirectToLogin lib w r, calls := [] }
  else
    { w := next w r, calls := [(w, r)] }

end auth

/-! ## internal/handlers -/

namespace handlers

open auth

/-- `Handler` manages HTTP requests for the auth proxy. -/
structure Handler where
  authProxy : AuthProxy

/-- `NewHandler` creates a new HTTP handler instance. -/
def NewHandler (authProxy : AuthProxy) : Handler := { authProxy := authProxy }

/-- The script `renderLogin` injects before `</head>`. -/
def configScript (lib : Lib) (h : Handler) (errorMsg : GoString) : GoString :=
  str "<script>\n\t\twindow.AUTH_CONFIG = \x7b\n\t\t\ttitle: \"" ++
    template.JSEscapeString lib.JSEscape h.authProxy.GetConfig.LoginTitle ++
    str "\",\n\t\t\terror: \"" ++ template.JSEscapeString lib.JSEscape errorMsg ++
    str "\"\n\t\t\x7d;\n\t</script>"

/-- `renderLogin` serves the React login app with server-side injected variables.
The argument `data` of the source is never read and is left out. -/
def Handler.renderLogin (lib : Lib) (h : Handler) (w : http.ResponseWriter)
    (errorMsg : GoString) : http.ResponseWriter :=
  match lib.indexHTML with
  | .openError => http.Error w (str "Login page not found") 500
  | .readError => http.Error w (str "Error loading login page") 500
  | .content content =>
    let htmlContent :=
      strings.ReplaceFirst content (str "</head>") (configScript lib h errorMsg ++ str "</head>")
    let w := w.Set (str "Content-Type") (str "text/html")
    w.Write htmlContent

/-- `HandleLogin` processes both GET and POST requests for the login page. -/
def Handler.HandleLogin (lib : Lib) (h : Handler) (w : http.ResponseWriter) (r : http.Request) :
    http.ResponseWriter :=
  if r.Method = str "GET" then h.renderLogin lib w []
  else
    let username := r.FormValue (str "username")
    let password := r.FormValue (str "password")
    if !h.authProxy.ValidateCredentials lib username password then
      h.renderLogin lib w (str "Invalid username or password")
    else
      match h.authProxy.CreateSession lib w r username with
      | (w, some _) => http.Error w (str "Internal server error") 500
      | (w, none) =>
        let redirectURL := r.URL.Query.Get (str "redirect")
        let redirectURL := if redirectURL = [] then str "/" else redirectURL
        http.Redirect lib.parseAuthority w r redirectURL 302

/-- `HandleLogout` processes logout requests and destroys the session. -/
def Handler.HandleLogout (lib : Lib) (h : Handler) (w : http.ResponseWriter) (r : http.Request) :
    http.ResponseWriter :=
  let w := (h.authProxy.DestroySession lib w r).1
  http.Redirect lib.parseAuthority w r (str "/auth/login") 302

/-- `HandleProxy` forwards authenticated requests to the target application. -/
def Handler.HandleProxy (h : Handler) (w : http.ResponseWriter) (r : http.Request) :
    http.ResponseWriter :=
  h.authProxy.GetProxy w r

end handlers

/-! ## Notions of the specification and concrete scenarios -/

namespace url

/-- The bytes `QueryEscape` can write: unreserved bytes, `%` and `+`. -/
def queryByte (c : Byte) : Bool :=
  !shouldEscape c encoding.encodeQueryComponent || c = ch '%' || c = ch '+'

/-- The "full path and query" of a request URL, in the words of the specification:
the escaped path, followed by `?` and the raw query when there is one. -/
def URL.pathAndQuery (u : URL) : GoString :=
  u.EscapedPath ++ (if u.ForceQuery ∨ u.RawQuery ≠ [] then str "?" ++ u.RawQuery else [])

/-- A request URL in origin form (`/path?query`), as the server parses it from an
ordinary request line: nothing but a path that starts with a slash and a query. -/
def URL.originForm (u : URL) : Prop :=
  u.Scheme = [] ∧ u.Opaque = [] ∧ u.User = none ∧ u.Host = [] ∧ u.Fragment = [] ∧
    u.Path.head? = some (ch '/') ∧ (u.RawPath = [] ∨ u.RawPath.head? = some (ch '/'))

end url

namespace http

/-- A "same-origin relative path", in the words of the specification: it starts
with one slash, so it is neither an absolute URL nor protocol-relative. -/
def sameOriginPath (loc : GoString) : Bool :=
  loc.head? = some (ch '/') && !strings.startsWith loc (str "//")

/-- The same request carrying no cookie of the given name. -/
def Request.withoutCookie (r : Request) (name : GoString) : Request :=
  { r with Cookies := r.Cookies.filter (fun kv => kv.1 ≠ name) }

end http

namespace scenario

open auth sessions

/-- A secure-cookie codec for the scenarios.  With a hash key it decodes exactly
the listed cookie values, rejects every other one as securecookie does a bad
signature, and encodes; without a hash key (a store made from an empty secret)
securecookie refuses to encode and to decode. -/
def codec (keyed : Bool) (valid : List (GoString × ValueMap)) : Codec :=
  { Encode := fun _ _ =>
      if keyed then .ok (str "MTcwMDAwfGVuY29kZWQ=")
      else .error (str "securecookie: hash key is not set"),
    Decode := fun _ value =>
      if keyed then
        match valid.find? (fun kv => kv.1 = value) with
        | some kv => .ok kv.2
        | none => .error (str "securecookie: the value is not valid")
      else .error (str "securecookie: hash key is not set") }

/-- The library behaviour of the scenarios: hosts made of letters, digits, `.` and
`-` are accepted as they are, the login page is a minimal document, and the
escaping loop of `JSEscape`, which no string of the scenarios reaches, returns its
argument. -/
def lib : Lib :=
  { bcryptMatches := fun _ _ => false,
    parseAuthority := fun a =>
      if a.all (fun c => (ch 'a' ≤ c && c ≤ ch 'z') || (ch '0' ≤ c && c ≤ ch '9') ||
          c = ch '.' || c = ch '-') then some (none, a) else none,
    now := 1700000000,
    JSEscape := fun s => s,
    indexHTML := .content (str "<html><head><title>Login</title></head><body></body></html>") }

/-- The session options `NewAuthProxy` sets on the cookie store. -/
def options : Options :=
  { Path := str "/", Domain := [], MaxAge := 86400 * 7, Secure := false, HttpOnly := true }

/-- A gateway configured with the plaintext credentials `admin` / `secret`, whose
cookie store has a hash key or not and accepts the listed cookie values. -/
def proxy (keyed : Bool) (valid : List (GoString × ValueMap)) : AuthProxy :=
  { config := { Username := str "admin", Password := str "secret" },
    store := { Codecs := codec keyed valid, Options := options },
    proxy := fun w _ => w.Write (str "upstream") }

/-- A login POST with the right credentials and the given raw query. -/
def login (rawQuery : GoString) (cookies : List (GoString × GoString)) : http.Request :=
  { Method := str "POST",
    URL := { Path := str "/auth/login", RawQuery := rawQuery },
    Body := [(str "username", str "admin"), (str "password", str "secret")],
    Cookies := cookies }

/-- A login POST with the given credentials. -/
def loginAs (username password : GoString) : http.Request :=
  { Method := str "POST",
    URL := { Path := str "/auth/login" },
    Body := [(str "username", username), (str "password", password)] }

/-- A GET of the given URL with the given cookies. -/
def get (u : url.URL) (cookies : List (GoString × GoString)) : http.Request :=
  { Method := str "GET", URL := u, Cookies := cookies }

end scenario

/-! ## Escaping round trip -/

namespace url

open encoding

theorem shouldEscape_space (mode : encoding) : shouldEscape (ch ' ') mode = true := by
  cases mode <;> decide

theorem hex_roundtrip : ∀ c : Byte,
    ishex (upperhex (c.val / 16)) = true ∧ ishex (upperhex (c.val % 16)) = true ∧
      unhexPair (upperhex (c.val / 16)) (upperhex (c.val % 16)) = c := by
  decide!

theorem unescaped_query_byte : ∀ c : Byte, shouldEscape c encodeQueryComponent = false →
    c ≠ ch '%' ∧ c ≠ ch '+' := by
  decide!

theorem upperhex_unescaped : ∀ c : Byte,
    shouldEscape (upperhex (c.val / 16)) encodeQueryComponent = false ∧
    shouldEscape (upperhex (c.val % 16)) encodeQueryComponent = false := by
  decide!

end url

namespace url
open encoding

theorem escapeLoop_of_none (mode : encoding) (s : GoString)
    (h : ∀ c ∈ s, shouldEscape c mode = false) : escapeLoop mode s = s := by
  induction s with
  | nil => rfl
  | cons c cs ih =>
    have hc : shouldEscape c mode = false := h c (List.mem_cons_self _ _)
    have hsp : ¬ (c = ch ' ' ∧ mode = encodeQueryComponent) := by
      rintro ⟨rfl, -⟩
      rw [shouldEscape_space] at hc
      exact Bool.noConfusion hc
    have ih2 := ih (fun d hd => h d (List.mem_cons_of_mem _ hd))
    simp [escapeLoop, hc, hsp, ih2]

theorem escapeLoop_of_spaces (s : GoString)
    (h : ∀ c ∈ s, shouldEscape c encodeQueryComponent = true → c = ch ' ') :
    escapeLoop encodeQueryComponent s = s.map (fun c => if c = ch ' ' then ch '+' else c) := by
  induction s with
  | nil => rfl
  | cons c cs ih =>
    have ih2 := ih (fun d hd => h d (List.mem_cons_of_mem _ hd))
    by_cases hc : c = ch ' '
    · simp [escapeLoop, hc, ih2]
    · have hne : shouldEscape c encodeQueryComponent = false := by
        cases hs : shouldEscape c encodeQueryComponent with
        | false => rfl
        | true => exact absurd (h c (List.mem_cons_self _ _) hs) hc
      simp [escapeLoop, hc, hne, ih2]

/-- Go `escape` computes the general loop; its two early returns are shortcuts. -/
theorem escape_eq_escapeLoop (s : GoString) (mode : encoding) :
    escape s mode = escapeLoop mode s := by
  unfold escape
  simp only []
  split_ifs with h1 h2
  · obtain ⟨ha, hb⟩ := h1
    rw [List.length_eq_zero, List.filter_eq_nil_iff] at ha hb
    symm
    apply escapeLoop_of_none
    intro c hc
    have a := ha c hc
    have b := hb c hc
    cases hs : shouldEscape c mode with
    | false => rfl
    | true =>
      rw [hs] at a b
      simp at a b
      exact absurd (b.1) (fun h => (a h) b.2)
  · rw [List.length_eq_zero, List.filter_eq_nil_iff] at h2
    have hex : ∃ c ∈ s, (shouldEscape c mode && (decide (c = ch ' ') && decide (mode = encodeQueryComponent))) = true := by
      by_contra hno
      apply h1
      refine ⟨?_, ?_⟩
      · rw [List.length_eq_zero, List.filter_eq_nil_iff]
        intro c hc hp
        exact hno ⟨c, hc, hp⟩
      · rw [List.length_eq_zero, List.filter_eq_nil_iff]
        exact h2
    obtain ⟨c0, -, hc0⟩ := hex
    have hmode : mode = encodeQueryComponent := by
      simp at hc0
      exact hc0.2.2
    subst hmode
    symm
    apply escapeLoop_of_spaces
    intro c hc hs
    have b := h2 c hc
    rw [hs] at b
    simpa using b
  · rfl

end url

namespace url
open encoding

theorem unescapeScan_cons (mode : encoding) (c : Byte) (rest : GoString) (n : Nat) (hp : Bool) :
    unescapeScan mode (c :: rest) n hp =
    if c = ch '%' then
      match rest with
      | h1 :: h2 :: rest2 =>
        if !ishex h1 || !ishex h2 then none
        else if mode = encodeHost ∧ (unhex h1).val < 8 ∧ [c, h1, h2] ≠ str "%25" then none
        else if mode = encodeZone ∧ [c, h1, h2] ≠ str "%25" ∧ unhexPair h1 h2 ≠ ch ' ' ∧
            shouldEscape (unhexPair h1 h2) encodeHost then none
        else unescapeScan mode rest2 (n + 1) hp
      | _ => none
    else if c = ch '+' then
      unescapeScan mode rest n (mode = encodeQueryComponent)
    else if (mode = encodeHost ∨ mode = encodeZone) ∧ c.val < 128 ∧ shouldEscape c encodeHost then
      none
    else unescapeScan mode rest n hp := by
  rw [unescapeScan.eq_def]
  rfl

theorem unescapeLoop_cons (mode : encoding) (c : Byte) (rest : GoString) :
    unescapeLoop mode (c :: rest) =
    if c = ch '%' then
      match rest with
      | h1 :: h2 :: rest2 => unhexPair h1 h2 :: unescapeLoop mode rest2
      | _ => []
    else if c = ch '+' then
      (if mode = encodeQueryComponent then ch ' ' else ch '+') :: unescapeLoop mode rest
    else c :: unescapeLoop mode rest := by
  rw [unescapeLoop.eq_def]
  rfl

theorem scan_escapeLoop (s : GoString) : ∀ (n : Nat) (hp : Bool),
    ∃ n2 hp2, unescapeScan encodeQueryComponent (escapeLoop encodeQueryComponent s) n hp
      = some (n2, hp2) := by
  induction s with
  | nil => intro n hp; exact ⟨n, hp, rfl⟩
  | cons c cs ih =>
    intro n hp
    by_cases hsp : c = ch ' '
    · obtain ⟨n2, hp2, h⟩ := ih n true
      refine ⟨n2, hp2, ?_⟩
      have e1 : (ch '+' : Byte) ≠ ch '%' := by decide
      simp [escapeLoop, hsp, unescapeScan_cons, e1, h]
    · cases hs : shouldEscape c encodeQueryComponent with
      | true =>
        obtain ⟨n2, hp2, h⟩ := ih (n + 1) hp
        refine ⟨n2, hp2, ?_⟩
        obtain ⟨a, b, -⟩ := hex_roundtrip c
        simp [escapeLoop, hsp, hs, unescapeScan_cons, a, b, h]
      | false =>
        obtain ⟨n2, hp2, h⟩ := ih n hp
        refine ⟨n2, hp2, ?_⟩
        obtain ⟨a, b⟩ := unescaped_query_byte c hs
        simp [escapeLoop, hsp, hs, unescapeScan_cons, a, b, h]

theorem loop_escapeLoop (s : GoString) :
    unescapeLoop encodeQueryComponent (escapeLoop encodeQueryComponent s) = s := by
  induction s with
  | nil => rfl
  | cons c cs ih =>
    by_cases hsp : c = ch ' '
    · have e1 : (ch '+' : Byte) ≠ ch '%' := by decide
      simp [escapeLoop, hsp, unescapeLoop_cons, e1, ih]
    · cases hs : shouldEscape c encodeQueryComponent with
      | true =>
        obtain ⟨-, -, e⟩ := hex_roundtrip c
        simp [escapeLoop, hsp, hs, unescapeLoop_cons, e, ih]
      | false =>
        obtain ⟨a, b⟩ := unescaped_query_byte c hs
        simp [escapeLoop, hsp, hs, unescapeLoop_cons, a, b, ih]

/-- What the first loop of `unescape` reports: the count only grows, in a query
component a seen `+` stays seen, and text with no `%` and no `+` to rewrite is left
as it is by the second loop. -/
theorem scan_spec (mode : encoding) : ∀ (k : Nat) (t : GoString), t.length ≤ k →
    ∀ (n : Nat) (hp : Bool) (n2 : Nat) (hp2 : Bool),
    unescapeScan mode t n hp = some (n2, hp2) →
      n ≤ n2 ∧ (mode = encodeQueryComponent → hp = true → hp2 = true) ∧
      (n2 = n → hp2 = false → unescapeLoop mode t = t) := by
  intro k
  induction k with
  | zero =>
    intro t ht n hp n2 hp2 h
    have : t = [] := List.length_eq_zero.mp (Nat.le_zero.mp ht)
    subst this
    simp [unescapeScan] at h
    obtain ⟨rfl, rfl⟩ := h
    simp [unescapeLoop]
  | succ k ih =>
    intro t ht n hp n2 hp2 h
    match t, ht, h with
    | [], _, h =>
      simp [unescapeScan] at h
      obtain ⟨rfl, rfl⟩ := h
      simp [unescapeLoop]
    | c :: rest, ht, h =>
      have hlen : rest.length ≤ k := by simpa using ht
      rw [unescapeScan_cons] at h
      rw [unescapeLoop_cons]
      by_cases hpc : c = ch '%'
      · match rest, hlen, h with
        | [], _, h => simp [hpc] at h
        | [_], _, h => simp [hpc] at h
        | h1 :: h2 :: rest2, hlen, h =>
          simp only [hpc, if_true] at h
          split_ifs at h
          have hl2 : rest2.length ≤ k := by
            simp at hlen; omega
          obtain ⟨a, b, -⟩ := ih rest2 hl2 (n + 1) hp n2 hp2 h
          refine ⟨by omega, b, ?_⟩
          intro e; omega
      · by_cases hpl : c = ch '+'
        · simp only [hpc, hpl, if_true, if_false] at h
          have hne : (ch '+' : Byte) ≠ ch '%' := by decide
          simp only [hne, if_false] at h
          obtain ⟨a, b, d⟩ := ih rest hlen n _ n2 hp2 h
          refine ⟨a, ?_, ?_⟩
          · intro hm _
            exact b hm (by simp [hm])
          · intro e1 e2
            have hm : mode ≠ encodeQueryComponent := by
              intro hm
              have := b hm (by simp [hm])
              rw [e2] at this
              exact Bool.noConfusion this
            subst hpl
            simp [hne, hm, d e1 e2]
        · simp only [hpc, hpl, if_false] at h
          split_ifs at h
          obtain ⟨a, b, d⟩ := ih rest hlen n hp n2 hp2 h
          refine ⟨a, b, ?_⟩
          intro e1 e2
          simp [hpc, hpl, d e1 e2]

/-- `QueryUnescape` undoes `QueryEscape` on every byte string. -/
theorem QueryUnescape_QueryEscape (s : GoString) : QueryUnescape (QueryEscape s) = some s := by
  unfold QueryUnescape QueryEscape unescape
  rw [escape_eq_escapeLoop]
  obtain ⟨n2, hp2, h⟩ := scan_escapeLoop s 0 false
  rw [h]
  simp only []
  split_ifs with hz
  · obtain ⟨-, -, d⟩ := scan_spec encodeQueryComponent _ _ (le_refl _) 0 false n2 hp2 h
    have := d hz.1 (by simpa using hz.2)
    rw [loop_escapeLoop] at this
    rw [← this]
  · rw [loop_escapeLoop]

end url

/-! ## Splitting and the bytes of an escaped query component -/

namespace strings

theorem Cut_of_not_mem (s : GoString) (sep : Byte) (h : sep ∉ s) : Cut s sep = (s, [], false) := by
  induction s with
  | nil => rfl
  | cons c cs ih =>
    have hc : c ≠ sep := fun e => h (e ▸ List.mem_cons_self _ _)
    have ih2 := ih (fun hm => h (List.mem_cons_of_mem _ hm))
    simp [Cut, hc, ih2]

theorem Cut_append (a b : GoString) (sep : Byte) (h : sep ∉ a) :
    Cut (a ++ sep :: b) sep = (a, b, true) := by
  induction a with
  | nil => simp [Cut]
  | cons c cs ih =>
    have hc : c ≠ sep := fun e => h (e ▸ List.mem_cons_self _ _)
    have ih2 := ih (fun hm => h (List.mem_cons_of_mem _ hm))
    simp [Cut, hc, ih2]

end strings

namespace url
open encoding

theorem queryByte_spec : ∀ c : Byte, queryByte c = true →
    c.val < 128 ∧ c ≠ ch '&' ∧ c ≠ ch ';' ∧ c ≠ ch '=' ∧ c ≠ ch '#' ∧ c ≠ ch '?' ∧
      c ≠ ch '/' ∧ c ≠ ch ':' ∧ (c < ch ' ' || c = 127) = false := by
  decide!

theorem queryByte_upperhex : ∀ c : Byte,
    queryByte (upperhex (c.val / 16)) = true ∧ queryByte (upperhex (c.val % 16)) = true := by
  decide!

theorem QueryEscape_bytes (s : GoString) : ∀ c ∈ QueryEscape s, queryByte c = true := by
  unfold QueryEscape
  rw [escape_eq_escapeLoop]
  induction s with
  | nil => intro c hc; simp [escapeLoop] at hc
  | cons d ds ih =>
    intro c hc
    by_cases hsp : d = ch ' '
    · simp [escapeLoop, hsp] at hc
      rcases hc with rfl | hc
      · decide
      · exact ih c hc
    · cases hs : shouldEscape d encodeQueryComponent with
      | true =>
        simp [escapeLoop, hsp, hs] at hc
        rcases hc with rfl | rfl | rfl | hc
        · decide
        · exact (queryByte_upperhex d).1
        · exact (queryByte_upperhex d).2
        · exact ih c hc
      | false =>
        simp [escapeLoop, hsp, hs] at hc
        rcases hc with rfl | hc
        · simp [queryByte, hs]
        · exact ih c hc

end url

namespace http

theorem hexEscapeNonASCII_of_ascii (s : GoString) (h : ∀ c ∈ s, c.val < 128) :
    hexEscapeNonASCII s = s := by
  induction s with
  | nil => rfl
  | cons c cs ih =>
    have hc : ¬ (c.val ≥ 128) := by
      have := h c (List.mem_cons_self _ _)
      omega
    have ih2 := ih (fun d hd => h d (List.mem_cons_of_mem _ hd))
    unfold hexEscapeNonASCII at ih2 ⊢
    rw [List.flatMap_cons, if_neg hc, ih2]
    rfl

end http

/-! ## The response writer and `http.Redirect` -/

namespace http

theorem Get_Set_self (w : ResponseWriter) (k v : GoString) : (w.Set k v).Get k = some v := by
  unfold ResponseWriter.Get ResponseWriter.Set
  have h : List.find? (fun kv => decide (kv.1 = k))
      (List.filter (fun kv => decide (kv.1 ≠ k)) w.header) = none := by
    rw [List.find?_eq_none]
    intro x hx
    have := (List.mem_filter.mp hx).2
    simpa using this
  simp [List.find?_append, h]

theorem find_filter_other {α β : Type} [DecidableEq α] (k k2 : α) (hk : k2 ≠ k)
    (l : List (α × β)) :
    List.find? (fun kv => decide (kv.1 = k2)) (List.filter (fun kv => decide (kv.1 ≠ k)) l)
      = List.find? (fun kv => decide (kv.1 = k2)) l := by
  induction l with
  | nil => rfl
  | cons x xs ih =>
    by_cases hx : x.1 = k
    · have hx2 : ¬ x.1 = k2 := fun e => hk (e ▸ hx)
      have f2 : decide (x.1 = k2) = false := by simp [hx2]
      have e : List.filter (fun kv : α × β => decide (kv.1 ≠ k)) (x :: xs)
          = List.filter (fun kv => decide (kv.1 ≠ k)) xs := by simp [List.filter_cons, hx]
      rw [e, List.find?_cons_of_neg _ (by simp [f2]), ih]
    · have e : List.filter (fun kv : α × β => decide (kv.1 ≠ k)) (x :: xs)
          = x :: List.filter (fun kv => decide (kv.1 ≠ k)) xs := by simp [List.filter_cons, hx]
      rw [e]
      by_cases hx2 : x.1 = k2
      · simp [List.find?_cons, hx2]
      · simp only [List.find?_cons, hx2, decide_False, ih]

theorem Get_Set_other (w : ResponseWriter) (k k2 v : GoString) (hk : k2 ≠ k) :
    (w.Set k v).Get k2 = w.Get k2 := by
  unfold ResponseWriter.Get ResponseWriter.Set
  simp only [List.find?_append, find_filter_other k k2 hk]
  have f2 : decide (k = k2) = false := by simp [Ne.symm hk]
  cases hf : List.find? (fun kv => decide (kv.1 = k2)) w.header with
  | some x => simp
  | none => simp [List.find?_cons, f2]

@[simp] theorem WriteHeader_header (w : ResponseWriter) (code : Nat) :
    (w.WriteHeader code).header = w.header := by
  unfold ResponseWriter.WriteHeader; cases w.status <;> rfl

@[simp] theorem WriteHeader_cookies (w : ResponseWriter) (code : Nat) :
    (w.WriteHeader code).cookies = w.cookies := by
  unfold ResponseWriter.WriteHeader; cases w.status <;> rfl

@[simp] theorem WriteHeader_body (w : ResponseWriter) (code : Nat) :
    (w.WriteHeader code).body = w.body := by
  unfold ResponseWriter.WriteHeader; cases w.status <;> rfl

theorem WriteHeader_status (w : ResponseWriter) (code : Nat) :
    (w.WriteHeader code).status = some (w.status.getD code) := by
  unfold ResponseWriter.WriteHeader; cases h : w.status <;> simp [h]

theorem Write_header (w : ResponseWriter) (b : GoString) : (w.Write b).header = w.header := by
  simp [ResponseWriter.Write]

theorem Write_cookies (w : ResponseWriter) (b : GoString) : (w.Write b).cookies = w.cookies := by
  simp [ResponseWriter.Write]

theorem Write_status (w : ResponseWriter) (b : GoString) :
    (w.Write b).status = some (w.status.getD 200) := by
  simp [ResponseWriter.Write, WriteHeader_status]

theorem Write_body (w : ResponseWriter) (b : GoString) : (w.Write b).body = w.body ++ b := by
  simp [ResponseWriter.Write]

theorem Get_congr (w1 w2 : ResponseWriter) (h : w1.header = w2.header) (k : GoString) :
    w1.Get k = w2.Get k := by
  unfold ResponseWriter.Get; rw [h]

/-- `http.Redirect` sets `Location` to the escaped redirect URL. -/
theorem Redirect_Location (pa : url.AuthorityParser) (w : ResponseWriter) (r : Request)
    (target : GoString) (code : Nat) :
    (Redirect pa w r target code).Get (str "Location")
      = some (hexEscapeNonASCII (redirectURL pa r target)) := by
  have hk : str "Location" ≠ str "Content-Type" := by decide
  unfold Redirect
  simp only []
  split_ifs <;>
    simp only [ResponseWriter.Get, Write_header, WriteHeader_header] <;>
    simp only [← ResponseWriter.Get.eq_1, Get_Set_other _ _ _ _ hk, Get_Set_self]

/-- `http.Redirect` writes the given status when the header is not yet written. -/
theorem Redirect_status (pa : url.AuthorityParser) (w : ResponseWriter) (r : Request)
    (target : GoString) (code : Nat) :
    (Redirect pa w r target code).status = some (w.status.getD code) := by
  unfold Redirect
  simp only []
  split_ifs <;>
    simp [Write_status, WriteHeader_status, ResponseWriter.Set]

/-- `http.Redirect` leaves the cookies of the response alone. -/
theorem Redirect_cookies (pa : url.AuthorityParser) (w : ResponseWriter) (r : Request)
    (target : GoString) (code : Nat) :
    (Redirect pa w r target code).cookies = w.cookies := by
  unfold Redirect
  simp only []
  split_ifs <;> simp [Write_cookies, ResponseWriter.Set]

/-- A target that is a clean absolute path, with or without a query, is the
`Location` that `http.Redirect` sends, whatever `url.Parse` makes of it. -/
theorem redirectURL_clean (pa : url.AuthorityParser) (r : Request) (p q : GoString)
    (hp1 : p.head? = some (ch '/')) (hp2 : ch '?' ∉ p) (hclean : path.Clean p = p)
    (hq : q = [] ∨ ∃ q2, q = ch '?' :: q2) :
    redirectURL pa r (p ++ q) = p ++ q := by
  unfold redirectURL
  cases hparse : url.Parse pa (p ++ q) with
  | none => rfl
  | some u =>
    by_cases hsh : u.Scheme = [] ∧ u.Host = []
    · simp only [if_pos hsh]
      have hne : ¬ (p ++ q = [] ∨ (p ++ q).head? ≠ some (ch '/')) := by
        match p, hp1 with
        | c :: p2, hp1 => simpa using hp1
      simp only [if_neg hne]
      have hends : ∀ t : GoString, ¬ (strings.endsWith t (str "/") = true ∧
          (!strings.endsWith t (str "/")) = true) := by
        intro t; cases strings.endsWith t (str "/") <;> simp
      rcases hq with rfl | ⟨q2, rfl⟩
      · simp only [List.append_nil]
        have hc : strings.Contains p (ch '?') = false := by
          simpa [strings.Contains] using hp2
        simp only [hc, Bool.false_eq_true, if_false, hclean]
        rw [if_neg (hends p)]
        simp
      · have hcut := strings.Cut_append p q2 (ch '?') hp2
        have hc : strings.Contains (p ++ ch '?' :: q2) (ch '?') = true := by
          simp [strings.Contains]
        simp only [hc, hcut, if_true, List.take_left, List.drop_left, hclean]
        rw [if_neg (hends p)]
    · simp only [if_neg hsh]

end http

namespace path

/-- The loop of `path.Clean` never needs more rounds than there are unread bytes:
any larger bound gives the same result. -/
theorem cleanLoop_fuel (rooted : Bool) : ∀ (n fuel : Nat) (rest out : GoString) (dotdot : Nat),
    rest.length ≤ n → n ≤ fuel →
      cleanLoop rooted fuel rest out dotdot = cleanLoop rooted n rest out dotdot := by
  intro n
  induction n with
  | zero =>
    intro fuel rest out dotdot hr _
    have : rest = [] := List.length_eq_zero.mp (Nat.le_zero.mp hr)
    subst this
    cases fuel <;> rfl
  | succ n ih =>
    intro fuel rest out dotdot hr hf
    match fuel, hf with
    | f + 1, hf =>
      match rest, hr with
      | [], _ => rfl
      | c :: rest, hr =>
        have hlen : rest.length ≤ n := by simpa using hr
        have htail : rest.tail.length ≤ n := by
          rw [List.length_tail]; omega
        have hf2 : n ≤ f := by omega
        by_cases hc : c = ch '/'
        · simp only [cleanLoop, if_pos hc]
          exact ih f rest out dotdot hlen hf2
        · have hdrop : ((c :: rest).dropWhile (fun b => decide (b ≠ ch '/'))).length ≤ n := by
            have e : (c :: rest).dropWhile (fun b => decide (b ≠ ch '/'))
                = rest.dropWhile (fun b => decide (b ≠ ch '/')) := by
              simp [List.dropWhile, hc]
            rw [e]
            have := (List.dropWhile_suffix (fun b => decide (b ≠ ch '/')) (l := rest)).length_le
            omega
          simp only [cleanLoop, if_neg hc]
          rw [ih f rest out dotdot hlen hf2, ih f rest.tail _ dotdot htail hf2,
            ih f rest.tail _ _ htail hf2, ih f rest.tail out dotdot htail hf2,
            ih f _ _ dotdot hdrop hf2]

end path

/-! ## Parsing the login redirect -/

namespace strings

theorem endsWith_single_false (l : GoString) (c : Byte) (h : l.getLast? ≠ some c) :
    endsWith l [c] = false := by
  cases hb : endsWith l [c] with
  | false => rfl
  | true =>
    exfalso
    unfold endsWith at hb
    rw [List.isSuffixOf_iff_suffix] at hb
    obtain ⟨t, rfl⟩ := hb
    simp at h

end strings

namespace url
open encoding

theorem parseQueryLoop_nil (fuel : Nat) : parseQueryLoop fuel [] = [] := by
  cases fuel <;> simp [parseQueryLoop]

theorem getLast_login (E : GoString) (hE : ∀ c ∈ E, queryByte c = true) :
    (str "/auth/login?redirect=" ++ E).getLast? ≠ some (ch '?') := by
  rw [List.getLast?_append]
  cases hl : E.getLast? with
  | none => simp; decide
  | some x =>
    have hx : x ∈ E := List.mem_of_getLast?_eq_some hl
    have := (queryByte_spec x (hE x hx)).2.2.2.2.2.1
    simpa using this

/-- The login redirect parses, as a URL reference and as a request target, into
the login path and the query `redirect=<escaped>`. -/
theorem parse_login (pa : AuthorityParser) (E : GoString) (hE : ∀ c ∈ E, queryByte c = true)
    (viaRequest : Bool) :
    parse pa (str "/auth/login?redirect=" ++ E) viaRequest
      = some { Path := str "/auth/login", RawQuery := str "redirect=" ++ E } := by
  have hpre : str "/auth/login?redirect=" = str "/auth/login" ++ ch '?' :: str "redirect=" := by
    decide
  have hctl : stringContainsCTLByte (str "/auth/login?redirect=" ++ E) = false := by
    unfold stringContainsCTLByte
    rw [List.any_append, Bool.or_eq_false_iff]
    refine ⟨by decide, ?_⟩
    rw [List.any_eq_false]
    intro c hc
    have := (queryByte_spec c (hE c hc)).2.2.2.2.2.2.2.2
    simp [this]
  have hne : str "/auth/login?redirect=" ++ E ≠ [] := by
    rw [hpre]; simp [str]
  have hstar : str "/auth/login?redirect=" ++ E ≠ str "*" := by
    intro h
    have h0 : str "/auth/login?redirect=" = ch '/' :: str "auth/login?redirect=" := by decide
    have h1 : str "*" = [ch '*'] := by decide
    rw [h0, h1, List.cons_append] at h
    exact absurd (List.cons.inj h).1 (by decide)
  have hscheme : getScheme (str "/auth/login?redirect=" ++ E)
      = some ([], str "/auth/login?redirect=" ++ E) := by
    have h0 : str "/auth/login?redirect=" = ch '/' :: str "auth/login?redirect=" := by decide
    unfold getScheme
    conv_lhs => arg 2; rw [h0]
    simp only [List.cons_append, getSchemeLoop]
    rw [if_neg (by decide), if_neg (by decide), if_neg (by decide)]
  have hends : strings.endsWith (str "/auth/login?redirect=" ++ E) (str "?") = false :=
    strings.endsWith_single_false _ _ (getLast_login E hE)
  have hcut : strings.Cut (str "/auth/login?redirect=" ++ E) (ch '?')
      = (str "/auth/login", str "redirect=" ++ E, true) := by
    rw [hpre, List.append_assoc, List.cons_append]
    exact strings.Cut_append _ _ _ (by decide)
  unfold parse
  rw [if_neg (by simp [hctl]), if_neg (by simp [hne]), if_neg hstar, hscheme]
  simp only [hends, hcut, Bool.false_and]
  have t1 : strings.ToLower [] = [] := rfl
  have s1 : strings.startsWith (str "/auth/login") (str "/") = true := by decide
  have s2 : strings.startsWith (str "/auth/login") (str "//") = false := by decide
  simp only [t1, s1, s2]
  have hset : URL.setPath { Scheme := [], RawQuery := str "redirect=" ++ E } (str "/auth/login")
      = some { Path := str "/auth/login", RawQuery := str "redirect=" ++ E } := by
    have u1 : unescape (str "/auth/login") encodePath = some (str "/auth/login") := by decide
    have u2 : str "/auth/login" = escape (str "/auth/login") encodePath := by decide
    unfold URL.setPath
    rw [u1]
    simp only [if_pos u2]
  simp [t1, s1, s2, hset]

theorem Parse_login (pa : AuthorityParser) (E : GoString) (hE : ∀ c ∈ E, queryByte c = true) :
    Parse pa (str "/auth/login?redirect=" ++ E)
      = some { Path := str "/auth/login", RawQuery := str "redirect=" ++ E } := by
  have hcut : strings.Cut (str "/auth/login?redirect=" ++ E) (ch '#')
      = (str "/auth/login?redirect=" ++ E, [], false) := by
    apply strings.Cut_of_not_mem
    intro hm
    rcases List.mem_append.mp hm with h | h
    · revert h; decide
    · exact (queryByte_spec _ (hE _ h)).2.2.2.2.1 rfl
  unfold Parse
  simp only [hcut, parse_login pa E hE false, if_true]

/-- Reading `redirect` from the query `redirect=<QueryEscape s>` gives `s` back. -/
theorem Query_login (u : URL) (s : GoString)
    (hq : u.RawQuery = str "redirect=" ++ QueryEscape s) :
    u.Query.Get (str "redirect") = s := by
  have hE := QueryEscape_bytes s
  have hamp : ch '&' ∉ str "redirect=" ++ QueryEscape s := by
    intro hm
    rcases List.mem_append.mp hm with h | h
    · revert h; decide
    · exact (queryByte_spec _ (hE _ h)).2.1 rfl
  have hsemi : ch ';' ∉ str "redirect=" ++ QueryEscape s := by
    intro hm
    rcases List.mem_append.mp hm with h | h
    · revert h; decide
    · exact (queryByte_spec _ (hE _ h)).2.2.1 rfl
  have hpre : str "redirect=" = str "redirect" ++ [ch '='] := by decide
  have hcut2 : strings.Cut (str "redirect=" ++ QueryEscape s) (ch '=')
      = (str "redirect", QueryEscape s, true) := by
    rw [hpre, List.append_assoc]
    exact strings.Cut_append _ _ _ (by decide)
  have hlen : (str "redirect=" ++ QueryEscape s).length = (8 + (QueryEscape s).length) + 1 := by
    rw [List.length_append]
    have : (str "redirect=").length = 9 := by decide
    omega
  have hne : str "redirect=" ++ QueryEscape s ≠ [] := by
    intro h; rw [h] at hlen; simp at hlen
  have hkey : QueryUnescape (str "redirect") = some (str "redirect") := by decide
  unfold URL.Query
  rw [hq, hlen]
  unfold parseQueryLoop
  simp only [if_neg hne, strings.Cut_of_not_mem _ _ hamp, parseQueryLoop_nil]
  have hc : strings.Contains (str "redirect=" ++ QueryEscape s) (ch ';') = false := by
    simpa [strings.Contains] using hsemi
  simp only [hc, Bool.false_eq_true, if_false, if_neg hne, hcut2, hkey,
    QueryUnescape_QueryEscape]
  simp [Values.Get]

end url

namespace strings

theorem Cut_rest_length (s : GoString) (sep : Byte) (h : s ≠ []) :
    (Cut s sep).2.1.length < s.length := by
  induction s with
  | nil => exact absurd rfl h
  | cons c cs ih =>
    by_cases hc : c = sep
    · simp [Cut, hc]
    · simp only [Cut, hc, if_false, List.length_cons]
      by_cases hcs : cs = []
      · subst hcs; simp [Cut]
      · have := ih hcs
        omega

end strings

namespace url

/-- The loop of `parseQuery` never needs more rounds than the query has bytes: any
larger bound gives the same pairs. -/
theorem parseQueryLoop_fuel : ∀ (n fuel : Nat) (query : GoString), query.length ≤ n →
    n ≤ fuel → parseQueryLoop fuel query = parseQueryLoop n query := by
  intro n
  induction n with
  | zero =>
    intro fuel query hq _
    have : query = [] := List.length_eq_zero.mp (Nat.le_zero.mp hq)
    subst this
    rw [parseQueryLoop_nil, parseQueryLoop_nil]
  | succ n ih =>
    intro fuel query hq hf
    match fuel, hf with
    | f + 1, hf =>
      by_cases hne : query = []
      · subst hne; rfl
      · have hlt := strings.Cut_rest_length query (ch '&') hne
        have hrec := ih f (strings.Cut query (ch '&')).2.1 (by omega) (by omega)
        simp only [parseQueryLoop, if_neg hne, hrec]

end url

/-! ## Credential validator -/

namespace auth

open sessions

/-- C1: `ValidateCredentials` returns true iff the username equals `Config.Username`
and the password matches the authoritative credential, which is the bcrypt hash
`Config.PasswordHash` whenever that is non-empty and the plaintext `Config.Password`
otherwise; the hash takes precedence, so a password equal to `Config.Password` that
does not match the hash is rejected, and a username mismatch yields false whatever
the password. -/
theorem ValidateCredentials_iff (lib : Lib) (ap : AuthProxy) (username password : GoString) :
    (ap.ValidateCredentials lib username password = true ↔
      username = ap.config.Username ∧
        ((ap.config.PasswordHash ≠ [] ∧
            lib.bcryptMatches ap.config.PasswordHash password = true) ∨
          (ap.config.PasswordHash = [] ∧ password = ap.config.Password))) ∧
    (ap.config.PasswordHash ≠ [] → password = ap.config.Password →
      lib.bcryptMatches ap.config.PasswordHash password = false →
        ap.ValidateCredentials lib username password = false) ∧
    (username ≠ ap.config.Username → ap.ValidateCredentials lib username password = false) := by
  unfold AuthProxy.ValidateCredentials
  refine ⟨?_, ?_, ?_⟩
  · by_cases hu : username = ap.config.Username
    · by_cases hh : ap.config.PasswordHash = []
      · simp [hu, hh]
      · simp [hu, hh]
    · simp [hu]
  · intro hh _ hb
    by_cases hu : username = ap.config.Username
    · simp [hu, hh, hb]
    · simp [hu]
  · intro hu
    simp [hu]

end auth

/-! ## Session manager -/

namespace auth

open sessions

theorem Get_no_cookie (s : CookieStore) (r : http.Request) (name : GoString)
    (h : r.Cookie name = none) :
    s.Get r name = ({ name := name, Values := [], Options := s.Options, IsNew := true }, none) := by
  simp [CookieStore.Get, CookieStore.New, h]

theorem Get_decode_error (s : CookieStore) (r : http.Request) (name value : GoString) (e : Error)
    (h : r.Cookie name = some value) (hd : s.Codecs.Decode name value = .error e) :
    s.Get r name
      = ({ name := name, Values := [], Options := s.Options, IsNew := true }, some e) := by
  simp [CookieStore.Get, CookieStore.New, h, hd]

theorem Get_decoded (s : CookieStore) (r : http.Request) (name value : GoString)
    (values : ValueMap) (h : r.Cookie name = some value)
    (hd : s.Codecs.Decode name value = .ok values) :
    s.Get r name
      = ({ name := name, Values := values, Options := s.Options, IsNew := false }, none) := by
  simp [CookieStore.Get, CookieStore.New, h, hd]

theorem withoutCookie_Cookie (r : http.Request) (name : GoString) :
    (r.withoutCookie name).Cookie name = none := by
  unfold http.Request.Cookie http.Request.withoutCookie
  have h : List.find? (fun kv => decide (kv.1 = name))
      (List.filter (fun kv => decide (kv.1 ≠ name)) r.Cookies) = none := by
    rw [List.find?_eq_none]
    intro x hx
    have := (List.mem_filter.mp hx).2
    simpa using this
  simp [h]

theorem IsAuthenticated_no_cookie (ap : AuthProxy) (r : http.Request)
    (h : r.Cookie (str "auth-session") = none) : ap.IsAuthenticated r = false := by
  simp [AuthProxy.IsAuthenticated, Get_no_cookie _ _ _ h, ValueMap.get]

theorem IsAuthenticated_decode_error (ap : AuthProxy) (r : http.Request) (value : GoString)
    (e : Error) (h : r.Cookie (str "auth-session") = some value)
    (hd : ap.store.Codecs.Decode (str "auth-session") value = .error e) :
    ap.IsAuthenticated r = false := by
  simp [AuthProxy.IsAuthenticated, Get_decode_error _ _ _ _ _ h hd]

theorem IsAuthenticated_decoded (ap : AuthProxy) (r : http.Request) (value : GoString)
    (values : ValueMap) (h : r.Cookie (str "auth-session") = some value)
    (hd : ap.store.Codecs.Decode (str "auth-session") value = .ok values) :
    (ap.IsAuthenticated r = true ↔
      values.get (.string (str "authenticated")) = some (.bool true)) := by
  simp only [AuthProxy.IsAuthenticated, Get_decoded _ _ _ _ _ h hd]
  cases hv : values.get (.string (str "authenticated")) with
  | none => simp
  | some v => cases v <;> simp

/-- C2: `IsAuthenticated` returns true iff the request carries an auth-session
cookie that decodes without error and whose decoded `authenticated` value is the
boolean true; a missing cookie, a decode error, an absent `authenticated` key and a
false or non-boolean `authenticated` value all yield false.  The result is a plain
boolean: no error reaches the caller. -/
theorem IsAuthenticated_iff (ap : AuthProxy) (r : http.Request) :
    (ap.IsAuthenticated r = true ↔
      ∃ value values, r.Cookie (str "auth-session") = some value ∧
        ap.store.Codecs.Decode (str "auth-session") value = .ok values ∧
        values.get (.string (str "authenticated")) = some (.bool true)) ∧
    (r.Cookie (str "auth-session") = none → ap.IsAuthenticated r = false) ∧
    (∀ value e, r.Cookie (str "auth-session") = some value →
      ap.store.Codecs.Decode (str "auth-session") value = .error e →
        ap.IsAuthenticated r = false) ∧
    (∀ value values, r.Cookie (str "auth-session") = some value →
      ap.store.Codecs.Decode (str "auth-session") value = .ok values →
        values.get (.string (str "authenticated")) ≠ some (.bool true) →
          ap.IsAuthenticated r = false) := by
  refine ⟨?_, IsAuthenticated_no_cookie ap r, IsAuthenticated_decode_error ap r, ?_⟩
  · constructor
    · intro hauth
      cases hc : r.Cookie (str "auth-session") with
      | none => rw [IsAuthenticated_no_cookie ap r hc] at hauth; exact Bool.noConfusion hauth
      | some value =>
        cases hd : ap.store.Codecs.Decode (str "auth-session") value with
        | error e =>
          rw [IsAuthenticated_decode_error ap r value e hc hd] at hauth
          exact Bool.noConfusion hauth
        | ok values =>
          exact ⟨value, values, rfl, hd, (IsAuthenticated_decoded ap r value values hc hd).mp hauth⟩
    · rintro ⟨value, values, hc, hd, hv⟩
      exact (IsAuthenticated_decoded ap r value values hc hd).mpr hv
  · intro value values hc hd hv
    cases hb : ap.IsAuthenticated r with
    | false => rfl
    | true => exact absurd ((IsAuthenticated_decoded ap r value values hc hd).mp hb) hv

end auth

/-! ## Auth gate -/

namespace url
open encoding

theorem escape_head_slash (s : GoString) (h : s.head? = some (ch '/')) :
    (escape s encodePath).head? = some (ch '/') := by
  rw [escape_eq_escapeLoop]
  match s, h with
  | c :: cs, h =>
    simp only [List.head?_cons, Option.some.injEq] at h
    subst h
    have h1 : ¬ ((ch '/' : Byte) = ch ' ' ∧ encodePath = encodeQueryComponent) := by decide
    have h2 : shouldEscape (ch '/') encodePath = false := by decide
    simp [escapeLoop, h1, h2]

theorem EscapedPath_head_slash (u : URL) (hp : u.Path.head? = some (ch '/'))
    (hr : u.RawPath = [] ∨ u.RawPath.head? = some (ch '/')) :
    u.EscapedPath.head? = some (ch '/') := by
  unfold URL.EscapedPath
  split_ifs with h1 h2
  · rcases hr with hr | hr
    · exact absurd hr h1.1
    · exact hr
  · rw [h2] at hp
    revert hp
    decide
  · exact escape_head_slash _ hp

/-- For a request URL in origin form, `String` is the path and the query and
nothing else. -/
theorem String_originForm (u : URL) (h : u.originForm) : u.String = u.pathAndQuery := by
  obtain ⟨h1, h2, h3, h4, h5, h6, h7⟩ := h
  have hhead := EscapedPath_head_slash u h6 h7
  unfold URL.String URL.stringHead URL.pathAndQuery
  match he : u.EscapedPath, hhead with
  | c :: cs, hhead =>
    simp only [List.head?_cons, Option.some.injEq] at hhead
    subst hhead
    simp [h1, h2, h3, h4, h5, strings.Cut, strings.Contains]
    split_ifs <;> simp

end url

namespace auth

open sessions

/-- The `Location` of the login redirect is the login path followed by the escaped
`r.URL.String()`: `http.Redirect` leaves this target as it is. -/
theorem RedirectToLogin_Location_eq (lib : Lib) (w : http.ResponseWriter) (r : http.Request) :
    (AuthProxy.RedirectToLogin lib w r).Get (str "Location")
      = some (str "/auth/login?redirect=" ++ url.QueryEscape r.URL.String) := by
  have hE := url.QueryEscape_bytes r.URL.String
  have hpre : str "/auth/login?redirect=" ++ url.QueryEscape r.URL.String
      = str "/auth/login" ++ (ch '?' :: (str "redirect=" ++ url.QueryEscape r.URL.String)) := by
    have : str "/auth/login?redirect=" = str "/auth/login" ++ ch '?' :: str "redirect=" := by
      decide
    rw [this]; simp
  unfold AuthProxy.RedirectToLogin
  simp only [http.Redirect_Location]
  rw [hpre, http.redirectURL_clean lib.parseAuthority r _ _ (by decide) (by decide) (by decide)
    (Or.inr ⟨_, rfl⟩), ← hpre]
  rw [http.hexEscapeNonASCII_of_ascii]
  intro c hc
  rcases List.mem_append.mp hc with h | h
  · have hall : ∀ d ∈ str "/auth/login?redirect=", d.val < 128 := by decide!
    exact hall c h
  · exact (url.queryByte_spec c (hE c h)).1

end auth

namespace url
open encoding

theorem unescape_head_slash (s p : GoString) (mode : encoding)
    (hs : s.head? = some (ch '/')) (hu : unescape s mode = some p) :
    p.head? = some (ch '/') := by
  unfold unescape at hu
  cases hsc : unescapeScan mode s 0 false with
  | none => rw [hsc] at hu; simp at hu
  | some np =>
    rw [hsc] at hu
    simp only [] at hu
    split_ifs at hu
    · simp only [Option.some.injEq] at hu
      rw [← hu]; exact hs
    · simp only [Option.some.injEq] at hu
      rw [← hu]
      match s, hs with
      | c :: cs, hs =>
        simp only [List.head?_cons, Option.some.injEq] at hs
        subst hs
        rw [unescapeLoop_cons, if_neg (by decide), if_neg (by decide)]
        rfl

/-- The server parses an origin-form request target (one that starts with a slash)
into a URL in origin form. -/
theorem ParseRequestURI_originForm (pa : AuthorityParser) (raw : GoString) (u : URL)
    (h0 : raw.head? = some (ch '/')) (hp : ParseRequestURI pa raw = some u) :
    u.originForm := by
  match raw, h0 with
  | c :: t, h0 =>
    simp only [List.head?_cons, Option.some.injEq] at h0
    subst h0
    have hscheme : getScheme (ch '/' :: t) = some ([], ch '/' :: t) := by
      unfold getScheme
      simp only [getSchemeLoop]
      rw [if_neg (by decide), if_neg (by decide), if_neg (by decide)]
    have hstar : ch '/' :: t ≠ str "*" := by
      have h1 : str "*" = [ch '*'] := by decide
      rw [h1]
      intro h
      exact absurd (List.cons.inj h).1 (by decide)
    have hrest : ∀ fq : Bool, (fq = true → strings.endsWith (ch '/' :: t) (str "?") = true) →
        ∃ t2, (if fq = true then (ch '/' :: t).dropLast
               else (strings.Cut (ch '/' :: t) (ch '?')).1) = ch '/' :: t2 := by
      intro fq hfq
      cases fq with
      | false =>
        refine ⟨(strings.Cut t (ch '?')).1, ?_⟩
        simp only [Bool.false_eq_true, if_false, strings.Cut]
        rw [if_neg (by decide)]
      | true =>
        have he := hfq rfl
        match t, he with
        | [], he => exact absurd he (by decide)
        | x :: t3, _ => exact ⟨(x :: t3).dropLast, by simp [List.dropLast]⟩
    unfold ParseRequestURI parse at hp
    by_cases hctl : stringContainsCTLByte (ch '/' :: t) = true
    · rw [if_pos hctl] at hp; simp at hp
    · rw [if_neg hctl, if_neg (by simp), if_neg hstar, hscheme] at hp
      simp only [] at hp
      obtain ⟨t2, ht2⟩ := hrest
        (strings.endsWith (ch '/' :: t) (str "?") && decide (strings.Count (ch '/' :: t) (ch '?') = 1))
        (by intro h; simp only [Bool.and_eq_true] at h; exact h.1)
      have hlow : strings.ToLower [] = [] := rfl
      have hsw : strings.startsWith (ch '/' :: t2) (str "/") = true := by
        simp [strings.startsWith, str, ch, String.utf8EncodeChar]
        decide
      simp only [ht2, hlow, hsw] at hp
      have hset : ∀ q : URL, q.Scheme = [] → q.Opaque = [] → q.User = none → q.Host = [] →
          q.Fragment = [] → URL.setPath q (ch '/' :: t2) = some u → u.originForm := by
        intro q a1 a2 a3 a4 a5 hq
        unfold URL.setPath at hq
        cases hun : unescape (ch '/' :: t2) encodePath with
        | none => rw [hun] at hq; simp at hq
        | some path =>
          rw [hun] at hq
          simp only [Option.some.injEq] at hq
          have hhead := unescape_head_slash _ _ _ (by simp) hun
          rw [← hq]
          refine ⟨a1, a2, a3, a4, a5, hhead, ?_⟩
          simp only []
          split_ifs
          · exact Or.inl rfl
          · exact Or.inr (by simp)
      simp only [Bool.not_true, Bool.false_eq_true, false_and, if_false, ne_eq,
        not_true_eq_false, false_or, and_false, Bool.true_eq_false] at hp
      split_ifs at hp <;> first
        | exact hset _ rfl rfl rfl rfl rfl hp
        | (exfalso; simp_all)

end url

namespace auth

open sessions

/-- C3: the handler `AuthMiddleware next` calls `next` exactly once, with the same
response writer and the same request, iff `IsAuthenticated r` is true, and its
response is then the one `next` leaves; when `IsAuthenticated r` is false, as it is
with no cookie and with a cookie that does not decode (expired, tampered), it never
calls `next` and answers with the login redirect: status 302 and the login
`Location`. -/
theorem AuthMiddleware_gate (lib : Lib) (ap : AuthProxy) (next : http.HandlerFunc)
    (w : http.ResponseWriter) (r : http.Request) :
    ((ap.AuthMiddleware lib next w r).calls = [(w, r)] ↔ ap.IsAuthenticated r = true) ∧
    ((ap.AuthMiddleware lib next w r).calls = [] ↔ ap.IsAuthenticated r = false) ∧
    (ap.IsAuthenticated r = true → (ap.AuthMiddleware lib next w r).w = next w r) ∧
    (ap.IsAuthenticated r = false →
      (ap.AuthMiddleware lib next w r).w = AuthProxy.RedirectToLogin lib w r ∧
      (ap.AuthMiddleware lib next w r).w.Get (str "Location")
        = some (str "/auth/login?redirect=" ++ url.QueryEscape r.URL.String) ∧
      (w.status = none → (ap.AuthMiddleware lib next w r).w.status = some 302)) ∧
    (r.Cookie (str "auth-session") = none → (ap.AuthMiddleware lib next w r).calls = []) ∧
    (∀ value e, r.Cookie (str "auth-session") = some value →
      ap.store.Codecs.Decode (str "auth-session") value = .error e →
        (ap.AuthMiddleware lib next w r).calls = []) := by
  have hgate : ap.IsAuthenticated r = false → (ap.AuthMiddleware lib next w r).calls = [] := by
    intro h; simp [AuthProxy.AuthMiddleware, h]
  refine ⟨?_, ?_, ?_, ?_, ?_, ?_⟩
  · cases h : ap.IsAuthenticated r <;> simp [AuthProxy.AuthMiddleware, h]
  · cases h : ap.IsAuthenticated r <;> simp [AuthProxy.AuthMiddleware, h]
  · intro h; simp [AuthProxy.AuthMiddleware, h]
  · intro h
    have hw : (ap.AuthMiddleware lib next w r).w = AuthProxy.RedirectToLogin lib w r := by
      simp [AuthProxy.AuthMiddleware, h]
    refine ⟨hw, ?_, ?_⟩
    · rw [hw]; exact RedirectToLogin_Location_eq lib w r
    · intro hs
      rw [hw]
      unfold AuthProxy.RedirectToLogin
      rw [http.Redirect_status, hs]
      rfl
  · intro hc
    exact hgate (IsAuthenticated_no_cookie ap r hc)
  · intro value e hc hd
    exact hgate (IsAuthenticated_decode_error ap r value e hc hd)

/-- C5 (as the code has it): `RedirectToLogin` answers with status 302 and the
`Location` `/auth/login?redirect=` followed by the query-escaped `r.URL.String()`.
For a request URL in origin form, which is what the server parses from a request
target that starts with a slash, that is the request's path and query and nothing
else; for GET `/reports/2024` the `Location` is exactly
`/auth/login?redirect=%2Freports%2F2024`. -/
theorem RedirectToLogin_redirect (lib : Lib) (w : http.ResponseWriter) (r : http.Request) :
    (AuthProxy.RedirectToLogin lib w r).Get (str "Location")
      = some (str "/auth/login?redirect=" ++ url.QueryEscape r.URL.String) ∧
    (w.status = none → (AuthProxy.RedirectToLogin lib w r).status = some 302) ∧
    (r.URL.originForm →
      (AuthProxy.RedirectToLogin lib w r).Get (str "Location")
        = some (str "/auth/login?redirect=" ++ url.QueryEscape r.URL.pathAndQuery)) ∧
    (∀ raw, raw.head? = some (ch '/') → url.ParseRequestURI lib.parseAuthority raw = some r.URL →
      (AuthProxy.RedirectToLogin lib w r).Get (str "Location")
        = some (str "/auth/login?redirect=" ++ url.QueryEscape r.URL.pathAndQuery)) ∧
    (r.URL = { Path := str "/reports/2024" } →
      (AuthProxy.RedirectToLogin lib w r).Get (str "Location")
        = some (str "/auth/login?redirect=%2Freports%2F2024")) := by
  refine ⟨RedirectToLogin_Location_eq lib w r, ?_, ?_, ?_, ?_⟩
  · intro hs
    unfold AuthProxy.RedirectToLogin
    rw [http.Redirect_status, hs]
    rfl
  · intro ho
    rw [RedirectToLogin_Location_eq, url.String_originForm _ ho]
  · intro raw h0 hp
    rw [RedirectToLogin_Location_eq,
      url.String_originForm _ (url.ParseRequestURI_originForm _ raw _ h0 hp)]
  · intro hu
    rw [RedirectToLogin_Location_eq, hu]
    decide

/-- The request `GET /reports/2024` is redirected to
`/auth/login?redirect=%2Freports%2F2024` with status 302. -/
theorem RedirectToLogin_redirect_reports :
    (AuthProxy.RedirectToLogin scenario.lib {}
        (scenario.get { Path := str "/reports/2024" } [])).Get (str "Location")
      = some (str "/auth/login?redirect=%2Freports%2F2024") ∧
    (AuthProxy.RedirectToLogin scenario.lib {}
        (scenario.get { Path := str "/reports/2024" } [])).status = some 302 :=
  ⟨(RedirectToLogin_redirect scenario.lib {}
      (scenario.get { Path := str "/reports/2024" } [])).2.2.2.2 rfl,
   (RedirectToLogin_redirect scenario.lib {}
      (scenario.get { Path := str "/reports/2024" } [])).2.1 rfl⟩

/-- C5, as it is stated, fails for a request whose request line carries an absolute
URI: `r.URL.String()` then includes the scheme and the host, so the `Location`
escapes `http://example.com/reports/2024` and not the path and query
`/reports/2024`. -/
theorem RedirectToLogin_absolute_form :
    (AuthProxy.RedirectToLogin scenario.lib {}
        (scenario.get { Scheme := str "http", Host := str "example.com",
                        Path := str "/reports/2024" } [])).Get (str "Location")
      = some (str "/auth/login?redirect=http%3A%2F%2Fexample.com%2Freports%2F2024") ∧
    url.URL.pathAndQuery { Scheme := str "http", Host := str "example.com",
                           Path := str "/reports/2024" } = str "/reports/2024" ∧
    (AuthProxy.RedirectToLogin scenario.lib {}
        (scenario.get { Scheme := str "http", Host := str "example.com",
                        Path := str "/reports/2024" } [])).Get (str "Location")
      ≠ some (str "/auth/login?redirect=" ++ url.QueryEscape (url.URL.pathAndQuery
          { Scheme := str "http", Host := str "example.com", Path := str "/reports/2024" })) := by
  decide

/-- C10: the `Location` that `RedirectToLogin` builds from a request URL is
`/auth/login?redirect=` followed by `QueryEscape(u.String())`; parsed as a URL
reference (`url.Parse`) or as a request target (`url.ParseRequestURI`) and read the
way `HandleLogin` does (`URL.Query().Get("redirect")`), it gives back exactly
`u.String()`. -/
theorem redirect_roundtrip (lib : Lib) (pa : url.AuthorityParser) (w : http.ResponseWriter)
    (r : http.Request) :
    (AuthProxy.RedirectToLogin lib w r).Get (str "Location")
      = some (str "/auth/login?redirect=" ++ url.QueryEscape r.URL.String) ∧
    (url.Parse pa (str "/auth/login?redirect=" ++ url.QueryEscape r.URL.String)).map
        (fun u => u.Query.Get (str "redirect")) = some r.URL.String ∧
    (url.ParseRequestURI pa (str "/auth/login?redirect=" ++ url.QueryEscape r.URL.String)).map
        (fun u => u.Query.Get (str "redirect")) = some r.URL.String := by
  refine ⟨RedirectToLogin_Location_eq lib w r, ?_, ?_⟩
  · rw [url.Parse_login pa _ (url.QueryEscape_bytes _)]
    simp only [Option.map_some']
    rw [url.Query_login _ r.URL.String rfl]
  · unfold url.ParseRequestURI
    rw [url.parse_login pa _ (url.QueryEscape_bytes _)]
    simp only [Option.map_some']
    rw [url.Query_login _ r.URL.String rfl]

end auth

/-! ## Issuing and destroying sessions -/

namespace sessions

theorem get_set_self (m : ValueMap) (k v : Value) : (m.set k v).get k = some v := by
  simp [ValueMap.get, ValueMap.set]

theorem get_set_other (m : ValueMap) (k k2 v : Value) (hk : k2 ≠ k) :
    (m.set k v).get k2 = m.get k2 := by
  unfold ValueMap.get ValueMap.set
  have f : decide (k = k2) = false := by simp [Ne.symm hk]
  rw [List.find?_cons_of_neg _ (by simp [f]), http.find_filter_other k k2 hk]

theorem Get_name (s : CookieStore) (r : http.Request) (name : GoString) :
    (s.Get r name).1.name = name ∧ (s.Get r name).1.Options = s.Options := by
  unfold CookieStore.Get CookieStore.New
  cases hc : r.Cookie name with
  | none => simp
  | some value =>
    cases hd : s.Codecs.Decode name value with
    | ok values => simp [hd]
    | error e => simp [hd]

end sessions

namespace auth

open sessions

/-- The values `CreateSession` saves: those of the session it got, with
`authenticated` true and `username` set. -/
theorem created_values (base : ValueMap) (username : GoString) :
    ((base.set (.string (str "authenticated")) (.bool true)).set
        (.string (str "username")) (.string username)).get (.string (str "authenticated"))
      = some (.bool true) ∧
    ((base.set (.string (str "authenticated")) (.bool true)).set
        (.string (str "username")) (.string username)).get (.string (str "username"))
      = some (.string username) := by
  refine ⟨?_, get_set_self _ _ _⟩
  rw [get_set_other _ _ _ _ (by decide), get_set_self]

/-- When getting the session fails, `CreateSession` returns the error and leaves the
response alone. -/
theorem CreateSession_get_error (lib : Lib) (ap : AuthProxy) (w : http.ResponseWriter)
    (r : http.Request) (username : GoString) (session : Session) (e : Error)
    (h : ap.store.Get r (str "auth-session") = (session, some e)) :
    ap.CreateSession lib w r username = (w, some (str "failed to get session: " ++ e)) := by
  simp [AuthProxy.CreateSession, h]

/-- When getting the session succeeds, `CreateSession` fails iff encoding fails, and
otherwise adds the session cookie. -/
theorem CreateSession_got (lib : Lib) (ap : AuthProxy) (w : http.ResponseWriter)
    (r : http.Request) (username : GoString) (session : Session)
    (h : ap.store.Get r (str "auth-session") = (session, none)) :
    ap.CreateSession lib w r username =
      match ap.store.Codecs.Encode (str "auth-session")
          ((session.Values.set (.string (str "authenticated")) (.bool true)).set
            (.string (str "username")) (.string username)) with
      | .error e => (w, some (str "failed to save session: " ++ e))
      | .ok encoded =>
        (http.SetCookie w (NewCookie lib.now (str "auth-session") encoded ap.store.Options),
          none) := by
  have hn := Get_name ap.store r (str "auth-session")
  rw [h] at hn
  obtain ⟨h1, h2⟩ := hn
  simp only at h1 h2
  simp only [AuthProxy.CreateSession, h, CookieStore.Save, h1, h2]
  cases he : ap.store.Codecs.Encode (str "auth-session")
      ((session.Values.set (.string (str "authenticated")) (.bool true)).set
        (.string (str "username")) (.string username)) <;> rfl

/-- A successful `CreateSession` added exactly one cookie: the encoding of values in
which `authenticated` is true and `username` is the given name. -/
theorem CreateSession_ok (lib : Lib) (ap : AuthProxy) (w : http.ResponseWriter)
    (r : http.Request) (username : GoString)
    (h : (ap.CreateSession lib w r username).2 = none) :
    ∃ values encoded,
      ap.store.Codecs.Encode (str "auth-session") values = .ok encoded ∧
      values.get (.string (str "authenticated")) = some (.bool true) ∧
      values.get (.string (str "username")) = some (.string username) ∧
      (ap.CreateSession lib w r username).1
        = http.SetCookie w (NewCookie lib.now (str "auth-session") encoded ap.store.Options) := by
  cases hg : ap.store.Get r (str "auth-session") with
  | mk session err =>
    cases err with
    | some e =>
      rw [CreateSession_get_error lib ap w r username session e hg] at h
      simp at h
    | none =>
      rw [CreateSession_got lib ap w r username session hg] at h ⊢
      cases he : ap.store.Codecs.Encode (str "auth-session")
          ((session.Values.set (.string (str "authenticated")) (.bool true)).set
            (.string (str "username")) (.string username)) with
      | error e => rw [he] at h; simp at h
      | ok encoded =>
        exact ⟨_, encoded, he, (created_values _ _).1, (created_values _ _).2, rfl⟩

/-- What `DestroySession` does, in terms of the session it gets: it encodes the
values with `authenticated` false and, when that succeeds, adds the cookie with
max-age -1; when encoding fails it returns the error and adds nothing. -/
theorem DestroySession_eq (lib : Lib) (ap : AuthProxy) (w : http.ResponseWriter)
    (r : http.Request) :
    ap.DestroySession lib w r =
      match ap.store.Codecs.Encode (str "auth-session")
          ((ap.store.Get r (str "auth-session")).1.Values.set
            (.string (str "authenticated")) (.bool false)) with
      | .error e => (w, some (str "failed to destroy session: " ++ e))
      | .ok encoded =>
        (http.SetCookie w (NewCookie lib.now (str "auth-session") encoded
          { ap.store.Options with MaxAge := -1 }), none) := by
  obtain ⟨h1, h2⟩ := Get_name ap.store r (str "auth-session")
  simp only [AuthProxy.DestroySession, CookieStore.Save, h1, h2]
  cases he : ap.store.Codecs.Encode (str "auth-session")
      ((ap.store.Get r (str "auth-session")).1.Values.set
        (.string (str "authenticated")) (.bool false)) <;> rfl

end auth

namespace http

/-- `http.Redirect` does not look at the cookies already set on the response. -/
theorem Redirect_with_cookies (pa : url.AuthorityParser) (w : ResponseWriter) (r : Request)
    (target : GoString) (code : Nat) (cs : List Cookie) :
    Redirect pa { w with cookies := cs } r target code
      = { Redirect pa w r target code with cookies := cs } := by
  unfold Redirect
  simp only [ResponseWriter.Get, ResponseWriter.Set, ResponseWriter.Write,
    ResponseWriter.WriteHeader]
  cases w.status <;> split_ifs <;> rfl

end http

/-! ## Login and logout handlers -/

namespace strings

/-- When `old` occurs in `s`, `ReplaceFirst` puts `new` in the place of one
occurrence and keeps the text around it. -/
theorem ReplaceFirst_of_occurs (old new : GoString) (hold : old ≠ []) :
    ∀ s : GoString, (∃ a b, s = a ++ old ++ b) →
      ∃ pre post, s = pre ++ old ++ post ∧ ReplaceFirst s old new = pre ++ new ++ post := by
  intro s
  induction s with
  | nil =>
    rintro ⟨a, b, h⟩
    have : old = [] := by
      have h2 := congrArg List.length h
      simp only [List.length_nil, List.length_append] at h2
      exact List.length_eq_zero.mp (by omega)
    exact absurd this hold
  | cons c cs ih =>
    rintro ⟨a, b, h⟩
    by_cases hp : old.isPrefixOf (c :: cs) = true
    · obtain ⟨t, ht⟩ := List.isPrefixOf_iff_prefix.mp hp
      refine ⟨[], t, by simpa using ht.symm, ?_⟩
      simp only [ReplaceFirst, hp, if_true, List.nil_append]
      rw [← ht, List.drop_left]
    · have hp2 : old.isPrefixOf (c :: cs) = false := by
        cases hb : old.isPrefixOf (c :: cs) with
        | false => rfl
        | true => exact absurd hb hp
      match a, h with
      | [], h =>
        exfalso
        apply hp
        rw [List.isPrefixOf_iff_prefix]
        exact ⟨b, by simpa using h.symm⟩
      | x :: a2, h =>
        simp only [List.cons_append, List.cons.injEq] at h
        obtain ⟨rfl, hcs⟩ := h
        obtain ⟨pre, post, e1, e2⟩ := ih ⟨a2, b, hcs⟩
        refine ⟨c :: pre, post, by simp [e1], ?_⟩
        simp only [ReplaceFirst, hp2, Bool.false_eq_true, if_false, e2, List.cons_append]

end strings

namespace handlers

open auth sessions

theorem HandleLogin_success_eq (lib : Lib) (h : Handler) (w : http.ResponseWriter)
    (r : http.Request) (hm : r.Method ≠ str "GET")
    (hv : h.authProxy.ValidateCredentials lib (r.FormValue (str "username"))
      (r.FormValue (str "password")) = true)
    (hs : (h.authProxy.CreateSession lib w r (r.FormValue (str "username"))).2 = none) :
    h.HandleLogin lib w r =
      http.Redirect lib.parseAuthority
        (h.authProxy.CreateSession lib w r (r.FormValue (str "username"))).1 r
        (if r.URL.Query.Get (str "redirect") = [] then str "/"
         else r.URL.Query.Get (str "redirect")) 302 := by
  unfold Handler.HandleLogin
  rw [if_neg hm]
  simp only [hv, Bool.not_true, Bool.false_eq_true, if_false]
  cases hcs : h.authProxy.CreateSession lib w r (r.FormValue (str "username")) with
  | mk w1 err =>
    rw [hcs] at hs
    simp only at hs
    subst hs
    rfl

theorem HandleLogin_session_error_eq (lib : Lib) (h : Handler) (w : http.ResponseWriter)
    (r : http.Request) (hm : r.Method ≠ str "GET")
    (hv : h.authProxy.ValidateCredentials lib (r.FormValue (str "username"))
      (r.FormValue (str "password")) = true)
    (e : Error)
    (hs : h.authProxy.CreateSession lib w r (r.FormValue (str "username")) = (w, some e)) :
    h.HandleLogin lib w r = http.Error w (str "Internal server error") 500 := by
  unfold Handler.HandleLogin
  rw [if_neg hm]
  simp only [hv, Bool.not_true, Bool.false_eq_true, if_false, hs]

theorem HandleLogin_failure_eq (lib : Lib) (h : Handler) (w : http.ResponseWriter)
    (r : http.Request) (hm : r.Method ≠ str "GET")
    (hv : h.authProxy.ValidateCredentials lib (r.FormValue (str "username"))
      (r.FormValue (str "password")) = false) :
    h.HandleLogin lib w r = h.renderLogin lib w (str "Invalid username or password") := by
  unfold Handler.HandleLogin
  rw [if_neg hm]
  simp only [hv, Bool.not_false, if_true]

theorem Error_cookies (w : http.ResponseWriter) (msg : GoString) (code : Nat) :
    (http.Error w msg code).cookies = w.cookies ∧
    (http.Error w msg code).Get (str "Location") = w.Get (str "Location") ∧
    (http.Error w msg code).status = some (w.status.getD code) ∧
    (http.Error w msg code).body = w.body ++ (msg ++ str "\n") := by
  unfold http.Error
  refine ⟨?_, ?_, ?_, ?_⟩
  · simp [http.Write_cookies, http.ResponseWriter.Set]
  · have e := http.Get_congr
      ((((w.Set (str "Content-Type") (str "text/plain; charset=utf-8")).Set
          (str "X-Content-Type-Options") (str "nosniff")).WriteHeader code).Write
        (msg ++ str "\n"))
      ((w.Set (str "Content-Type") (str "text/plain; charset=utf-8")).Set
          (str "X-Content-Type-Options") (str "nosniff"))
      (by rw [http.Write_header, http.WriteHeader_header]) (str "Location")
    rw [e, http.Get_Set_other _ _ _ _ (by decide), http.Get_Set_other _ _ _ _ (by decide)]
  · rw [http.Write_status, http.WriteHeader_status]
    simp [http.ResponseWriter.Set]
  · rw [http.Write_body]
    simp [http.ResponseWriter.Set]

/-- What `renderLogin` leaves on the response: never a cookie, never a `Location`,
and a status that is 200 or 500. -/
theorem renderLogin_spec (lib : Lib) (h : Handler) (w : http.ResponseWriter) (msg : GoString) :
    (h.renderLogin lib w msg).cookies = w.cookies ∧
    (h.renderLogin lib w msg).Get (str "Location") = w.Get (str "Location") ∧
    (w.status = none → (h.renderLogin lib w msg).status = some 200 ∨
      (h.renderLogin lib w msg).status = some 500) := by
  unfold Handler.renderLogin
  cases lib.indexHTML with
  | openError =>
    obtain ⟨a, b, c, -⟩ := Error_cookies w (str "Login page not found") 500
    exact ⟨a, b, fun hs => Or.inr (by rw [c, hs]; rfl)⟩
  | readError =>
    obtain ⟨a, b, c, -⟩ := Error_cookies w (str "Error loading login page") 500
    exact ⟨a, b, fun hs => Or.inr (by rw [c, hs]; rfl)⟩
  | content c =>
    refine ⟨?_, ?_, ?_⟩
    · simp [http.Write_cookies, http.ResponseWriter.Set]
    · simp only []
      rw [http.Get_congr _ _ (http.Write_header _ _), http.Get_Set_other _ _ _ _ (by decide)]
    · intro hs
      left
      simp only []
      rw [http.Write_status]
      simp [http.ResponseWriter.Set, hs]

end handlers

namespace handlers

open auth sessions

/-- C6: for a POST to `/auth/login` whose submitted username and password pass
`ValidateCredentials` and whose session is issued, `HandleLogin` writes one session
cookie, the encoding of values with `authenticated` true and `username` the
submitted name, and answers with the 302 redirect whose target is the request's
`redirect` query parameter when that is non-empty and `/` otherwise; with
`redirect=/dashboard` the `Location` is `/dashboard`, and in general the `Location`
is the parameter itself whenever that is a clean absolute path in ASCII, with or
without a query. -/
theorem HandleLogin_success (lib : Lib) (h : Handler) (w : http.ResponseWriter)
    (r : http.Request) (hm : r.Method ≠ str "GET")
    (hv : h.authProxy.ValidateCredentials lib (r.FormValue (str "username"))
      (r.FormValue (str "password")) = true)
    (hs : (h.authProxy.CreateSession lib w r (r.FormValue (str "username"))).2 = none) :
    h.HandleLogin lib w r =
      http.Redirect lib.parseAuthority
        (h.authProxy.CreateSession lib w r (r.FormValue (str "username"))).1 r
        (if r.URL.Query.Get (str "redirect") = [] then str "/"
         else r.URL.Query.Get (str "redirect")) 302 ∧
    (∃ values encoded,
      h.authProxy.store.Codecs.Encode (str "auth-session") values = .ok encoded ∧
      values.get (.string (str "authenticated")) = some (.bool true) ∧
      values.get (.string (str "username")) = some (.string (r.FormValue (str "username"))) ∧
      (h.HandleLogin lib w r).cookies = w.cookies ++
        [NewCookie lib.now (str "auth-session") encoded h.authProxy.store.Options]) ∧
    (w.status = none → (h.HandleLogin lib w r).status = some 302) ∧
    (r.URL.Query.Get (str "redirect") = [] →
      (h.HandleLogin lib w r).Get (str "Location") = some (str "/")) ∧
    (r.URL.Query.Get (str "redirect") = str "/dashboard" →
      (h.HandleLogin lib w r).Get (str "Location") = some (str "/dashboard")) ∧
    (∀ p q, r.URL.Query.Get (str "redirect") = p ++ q → p.head? = some (ch '/') → ch '?' ∉ p →
      path.Clean p = p → (q = [] ∨ ∃ q2, q = ch '?' :: q2) → (∀ c ∈ p ++ q, c.val < 128) →
        (h.HandleLogin lib w r).Get (str "Location") = some (p ++ q)) := by
  have heq := HandleLogin_success_eq lib h w r hm hv hs
  obtain ⟨values, encoded, he, ha, hu, hw⟩ :=
    CreateSession_ok lib h.authProxy w r (r.FormValue (str "username")) hs
  refine ⟨heq, ⟨values, encoded, he, ha, hu, ?_⟩, ?_, ?_, ?_, ?_⟩
  · rw [heq, http.Redirect_cookies, hw]
    rfl
  · intro hst
    rw [heq, http.Redirect_status, hw]
    simp [http.SetCookie, hst]
  · intro hq
    rw [heq, http.Redirect_Location, if_pos hq]
    have := http.redirectURL_clean lib.parseAuthority r (str "/") [] (by decide) (by decide)
      (by decide) (Or.inl rfl)
    rw [List.append_nil] at this
    rw [this]
    decide
  · intro hq
    rw [heq, http.Redirect_Location, hq, if_neg (by decide)]
    have := http.redirectURL_clean lib.parseAuthority r (str "/dashboard") [] (by decide)
      (by decide) (by decide) (Or.inl rfl)
    rw [List.append_nil] at this
    rw [this]
    decide
  · intro p q hq hp1 hp2 hclean hqq hascii
    have hne : p ++ q ≠ [] := by
      match p, hp1 with
      | c :: p2, _ => simp
    rw [heq, http.Redirect_Location, hq, if_neg hne,
      http.redirectURL_clean lib.parseAuthority r p q hp1 hp2 hclean hqq,
      http.hexEscapeNonASCII_of_ascii _ hascii]

/-- A login with the right credentials and `redirect=/dashboard` is answered with a
302 to `/dashboard` and the session cookie. -/
theorem HandleLogin_success_dashboard :
    (Handler.HandleLogin scenario.lib ⟨scenario.proxy true []⟩ {}
        (scenario.login (str "redirect=/dashboard") [])).Get (str "Location")
      = some (str "/dashboard") ∧
    (Handler.HandleLogin scenario.lib ⟨scenario.proxy true []⟩ {}
        (scenario.login (str "redirect=/dashboard") [])).status = some 302 :=
  ⟨(HandleLogin_success scenario.lib ⟨scenario.proxy true []⟩ {}
      (scenario.login (str "redirect=/dashboard") []) (by decide) (by decide)
      (by decide)).2.2.2.2.1 (by decide),
   (HandleLogin_success scenario.lib ⟨scenario.proxy true []⟩ {}
      (scenario.login (str "redirect=/dashboard") []) (by decide) (by decide)
      (by decide)).2.2.1 rfl⟩

/-- C4 (as the code has it): after a successful login the `Location` is what
`http.Redirect` makes of the `redirect` query parameter as submitted; it is not
checked to be a same-origin path.  Only an empty or absent parameter becomes `/`; a
parameter that `url.Parse` reads with a scheme or a host, or cannot parse, is sent
unchanged. -/
theorem HandleLogin_redirect_unvalidated (lib : Lib) (h : Handler) (w : http.ResponseWriter)
    (r : http.Request) (hm : r.Method ≠ str "GET")
    (hv : h.authProxy.ValidateCredentials lib (r.FormValue (str "username"))
      (r.FormValue (str "password")) = true)
    (hs : (h.authProxy.CreateSession lib w r (r.FormValue (str "username"))).2 = none) :
    (h.HandleLogin lib w r).Get (str "Location") =
      some (http.hexEscapeNonASCII (http.redirectURL lib.parseAuthority r
        (if r.URL.Query.Get (str "redirect") = [] then str "/"
         else r.URL.Query.Get (str "redirect")))) ∧
    (r.URL.Query.Get (str "redirect") = [] →
      (h.HandleLogin lib w r).Get (str "Location") = some (str "/")) ∧
    (r.URL.Query.Get (str "redirect") ≠ [] →
      ∀ u, url.Parse lib.parseAuthority (r.URL.Query.Get (str "redirect")) = some u →
        u.Scheme ≠ [] ∨ u.Host ≠ [] →
          (h.HandleLogin lib w r).Get (str "Location")
            = some (http.hexEscapeNonASCII (r.URL.Query.Get (str "redirect")))) ∧
    (r.URL.Query.Get (str "redirect") ≠ [] →
      url.Parse lib.parseAuthority (r.URL.Query.Get (str "redirect")) = none →
        (h.HandleLogin lib w r).Get (str "Location")
          = some (http.hexEscapeNonASCII (r.URL.Query.Get (str "redirect")))) := by
  have heq := HandleLogin_success_eq lib h w r hm hv hs
  refine ⟨?_, ?_, ?_, ?_⟩
  · rw [heq, http.Redirect_Location]
  · intro hq
    rw [heq, http.Redirect_Location, if_pos hq]
    have := http.redirectURL_clean lib.parseAuthority r (str "/") [] (by decide) (by decide)
      (by decide) (Or.inl rfl)
    rw [List.append_nil] at this
    rw [this]
    decide
  · intro hq u hp hsh
    rw [heq, http.Redirect_Location, if_neg hq]
    unfold http.redirectURL
    rw [hp]
    have : ¬ (u.Scheme = [] ∧ u.Host = []) := by
      rintro ⟨a, b⟩
      rcases hsh with c | c
      · exact c a
      · exact c b
    simp only [if_neg this]
  · intro hq hp
    rw [heq, http.Redirect_Location, if_neg hq]
    unfold http.redirectURL
    rw [hp]

/-- A login with `redirect=https://evil.example/phish` is answered with that
absolute URL as `Location`. -/
theorem HandleLogin_redirect_unvalidated_absolute :
    (Handler.HandleLogin scenario.lib ⟨scenario.proxy true []⟩ {}
        (scenario.login (str "redirect=https://evil.example/phish") [])).Get (str "Location")
      = some (http.hexEscapeNonASCII (str "https://evil.example/phish")) :=
  (HandleLogin_redirect_unvalidated scenario.lib ⟨scenario.proxy true []⟩ {}
      (scenario.login (str "redirect=https://evil.example/phish") []) (by decide) (by decide)
      (by decide)).2.2.1 (by decide)
    { Scheme := str "https", Host := str "evil.example", Path := str "/phish" } (by decide)
    (Or.inl (by decide))

/-- C4, as it is stated, fails: a login with valid credentials and
`redirect=https://evil.example/phish` is redirected to `https://evil.example/phish`,
and one with `redirect=//evil.example/x` to `//evil.example/x`; neither `Location`
is a same-origin relative path. -/
theorem HandleLogin_open_redirect :
    auth.AuthProxy.ValidateCredentials scenario.lib (scenario.proxy true []) (str "admin")
      (str "secret") = true ∧
    (Handler.HandleLogin scenario.lib ⟨scenario.proxy true []⟩ {}
        (scenario.login (str "redirect=https://evil.example/phish") [])).Get (str "Location")
      = some (str "https://evil.example/phish") ∧
    http.sameOriginPath (str "https://evil.example/phish") = false ∧
    (Handler.HandleLogin scenario.lib ⟨scenario.proxy true []⟩ {}
        (scenario.login (str "redirect=//evil.example/x") [])).Get (str "Location")
      = some (str "//evil.example/x") ∧
    http.sameOriginPath (str "//evil.example/x") = false := by
  decide

end handlers

namespace handlers

open auth sessions

/-- C7 (as the code has it): for a request whose auth-session cookie does not decode,
`IsAuthenticated` and `DestroySession` return what they return for the same request
without the cookie, but `CreateSession` does not: it returns the error
"failed to get session" and writes nothing, so `HandleLogin` with valid credentials
answers 500; without the cookie `CreateSession` fails only if encoding fails. -/
theorem undecodable_cookie (lib : Lib) (ap : AuthProxy) (w : http.ResponseWriter)
    (r : http.Request) (username value : GoString) (e : Error)
    (hc : r.Cookie (str "auth-session") = some value)
    (hd : ap.store.Codecs.Decode (str "auth-session") value = .error e) :
    ap.IsAuthenticated r = ap.IsAuthenticated (r.withoutCookie (str "auth-session")) ∧
    ap.DestroySession lib w r = ap.DestroySession lib w (r.withoutCookie (str "auth-session")) ∧
    ap.CreateSession lib w r username = (w, some (str "failed to get session: " ++ e)) ∧
    ((ap.CreateSession lib w (r.withoutCookie (str "auth-session")) username).2 = none ↔
      ∃ encoded, ap.store.Codecs.Encode (str "auth-session")
        ((ValueMap.set [] (.string (str "authenticated")) (.bool true)).set
          (.string (str "username")) (.string username)) = .ok encoded) ∧
    (r.Method ≠ str "GET" →
      ap.ValidateCredentials lib (r.FormValue (str "username")) (r.FormValue (str "password"))
        = true →
      Handler.HandleLogin lib ⟨ap⟩ w r = http.Error w (str "Internal server error") 500 ∧
      (w.status = none → (Handler.HandleLogin lib ⟨ap⟩ w r).status = some 500)) := by
  have hno := withoutCookie_Cookie r (str "auth-session")
  have hg1 := Get_decode_error ap.store r _ _ _ hc hd
  have hg0 := Get_no_cookie ap.store (r.withoutCookie (str "auth-session")) _ hno
  refine ⟨?_, ?_, ?_, ?_, ?_⟩
  · rw [IsAuthenticated_decode_error ap r value e hc hd, IsAuthenticated_no_cookie ap _ hno]
  · rw [DestroySession_eq, DestroySession_eq, hg1, hg0]
  · exact CreateSession_get_error lib ap w r username _ e hg1
  · rw [CreateSession_got lib ap w _ username _ hg0]
    cases he : ap.store.Codecs.Encode (str "auth-session")
        ((ValueMap.set [] (.string (str "authenticated")) (.bool true)).set
          (.string (str "username")) (.string username)) with
    | error e2 => simp
    | ok encoded => simp
  · intro hm hv
    have heq := HandleLogin_session_error_eq lib ⟨ap⟩ w r hm hv _
      (CreateSession_get_error lib ap w r (r.FormValue (str "username")) _ e hg1)
    refine ⟨heq, ?_⟩
    intro hs
    rw [heq, (Error_cookies w _ 500).2.2.1, hs]
    rfl

/-- A login with valid credentials and a stale cookie: `CreateSession` returns the
"failed to get session" error. -/
theorem undecodable_cookie_stale :
    auth.AuthProxy.CreateSession scenario.lib (scenario.proxy true []) {}
        (scenario.login [] [(str "auth-session", str "stale")]) (str "admin")
      = ({}, some (str "failed to get session: " ++ str "securecookie: the value is not valid")) :=
  (undecodable_cookie scenario.lib (scenario.proxy true []) {}
    (scenario.login [] [(str "auth-session", str "stale")]) (str "admin") (str "stale")
    (str "securecookie: the value is not valid") (by decide) rfl).2.2.1

/-- C7, as it is stated, fails: with a stale auth-session cookie that does not decode,
`CreateSession` returns an error although encoding would succeed, while for the same
request without the cookie it succeeds; the login with valid credentials is then
answered with status 500 instead of the 302 it gets without the cookie. -/
theorem CreateSession_rejects_stale_cookie :
    (auth.AuthProxy.CreateSession scenario.lib (scenario.proxy true []) {}
        (scenario.login [] [(str "auth-session", str "stale")]) (str "admin")).2
      = some (str "failed to get session: securecookie: the value is not valid") ∧
    (auth.AuthProxy.CreateSession scenario.lib (scenario.proxy true []) {}
        ((scenario.login [] [(str "auth-session", str "stale")]).withoutCookie
          (str "auth-session")) (str "admin")).2 = none ∧
    (Handler.HandleLogin scenario.lib ⟨scenario.proxy true []⟩ {}
        (scenario.login [] [(str "auth-session", str "stale")])).status = some 500 ∧
    (Handler.HandleLogin scenario.lib ⟨scenario.proxy true []⟩ {}
        ((scenario.login [] [(str "auth-session", str "stale")]).withoutCookie
          (str "auth-session"))).status = some 302 := by
  decide

/-- C8: for every request, in any cookie state, `HandleLogout` answers with the 302
redirect to `/auth/login`, and nothing of `DestroySession`'s result but the cookie
reaches the response, so no error is surfaced even when `DestroySession` returns
one.  `DestroySession` sets `authenticated` to false and the max-age to -1 and,
the store encoding that session, returns no error and writes the auth-session
cookie with max-age -1 and an expiry in the past; an encoding error is the only
error it returns, and then it writes nothing. -/
theorem HandleLogout_redirects (lib : Lib) (h : Handler) (w : http.ResponseWriter)
    (r : http.Request) :
    (h.HandleLogout lib w r).Get (str "Location") = some (str "/auth/login") ∧
    (w.status = none → (h.HandleLogout lib w r).status = some 302) ∧
    h.HandleLogout lib w r =
      { http.Redirect lib.parseAuthority w r (str "/auth/login") 302 with
        cookies := (h.authProxy.DestroySession lib w r).1.cookies } ∧
    (((h.authProxy.store.Get r (str "auth-session")).1.Values.set
        (.string (str "authenticated")) (.bool false)).get (.string (str "authenticated"))
      = some (.bool false)) ∧
    (∀ encoded, h.authProxy.store.Codecs.Encode (str "auth-session")
        ((h.authProxy.store.Get r (str "auth-session")).1.Values.set
          (.string (str "authenticated")) (.bool false)) = .ok encoded →
      (h.authProxy.DestroySession lib w r).2 = none ∧
      (h.HandleLogout lib w r).cookies = w.cookies ++
        [NewCookie lib.now (str "auth-session") encoded
          { h.authProxy.store.Options with MaxAge := -1 }] ∧
      (NewCookie lib.now (str "auth-session") encoded
          { h.authProxy.store.Options with MaxAge := -1 }).MaxAge = -1 ∧
      (NewCookie lib.now (str "auth-session") encoded
          { h.authProxy.store.Options with MaxAge := -1 }).Expires = some 1) ∧
    (∀ e, h.authProxy.store.Codecs.Encode (str "auth-session")
        ((h.authProxy.store.Get r (str "auth-session")).1.Values.set
          (.string (str "authenticated")) (.bool false)) = .error e →
      (h.authProxy.DestroySession lib w r).2 = some (str "failed to destroy session: " ++ e) ∧
      (h.HandleLogout lib w r).cookies = w.cookies) ∧
    ((∀ values, ∃ encoded,
        h.authProxy.store.Codecs.Encode (str "auth-session") values = .ok encoded) →
      (h.authProxy.DestroySession lib w r).2 = none ∧
      ∃ cookie, (h.HandleLogout lib w r).cookies = w.cookies ++ [cookie] ∧
        cookie.Name = str "auth-session" ∧ cookie.MaxAge = -1 ∧ cookie.Expires = some 1 ∧
        ∃ values, values.get (.string (str "authenticated")) = some (.bool false) ∧
          h.authProxy.store.Codecs.Encode (str "auth-session") values = .ok cookie.Value) := by
  have hloc : http.redirectURL lib.parseAuthority r (str "/auth/login") = str "/auth/login" := by
    have := http.redirectURL_clean lib.parseAuthority r (str "/auth/login") [] (by decide)
      (by decide) (by decide) (Or.inl rfl)
    rw [List.append_nil] at this
    exact this
  have hw : (h.authProxy.DestroySession lib w r).1
      = { w with cookies := (h.authProxy.DestroySession lib w r).1.cookies } := by
    rw [DestroySession_eq]
    cases h.authProxy.store.Codecs.Encode (str "auth-session")
        ((h.authProxy.store.Get r (str "auth-session")).1.Values.set
          (.string (str "authenticated")) (.bool false)) <;> rfl
  have heq : h.HandleLogout lib w r =
      { http.Redirect lib.parseAuthority w r (str "/auth/login") 302 with
        cookies := (h.authProxy.DestroySession lib w r).1.cookies } := by
    unfold Handler.HandleLogout
    simp only []
    rw [hw, http.Redirect_with_cookies]
  refine ⟨?_, ?_, heq, get_set_self _ _ _, ?_, ?_, ?_⟩
  · unfold Handler.HandleLogout
    simp only []
    rw [http.Redirect_Location, hloc]
    decide
  · intro hs
    rw [heq]
    simp only []
    rw [http.Redirect_status, hs]
    rfl
  · intro encoded he
    rw [heq, DestroySession_eq, he]
    exact ⟨rfl, rfl, rfl, rfl⟩
  · intro e he
    rw [heq, DestroySession_eq, he]
    exact ⟨rfl, rfl⟩
  · intro henc
    obtain ⟨encoded, he⟩ := henc ((h.authProxy.store.Get r (str "auth-session")).1.Values.set
      (.string (str "authenticated")) (.bool false))
    rw [heq, DestroySession_eq, he]
    exact ⟨rfl, _, rfl, rfl, rfl, rfl, _, get_set_self _ _ _, he⟩

/-- When `DestroySession` returns an error (here a cookie store made without a hash
key, which cannot encode), the logout is still answered with the 302 to
`/auth/login` and nothing of the error reaches the response. -/
theorem HandleLogout_error_not_surfaced :
    (auth.AuthProxy.DestroySession scenario.lib (scenario.proxy false []) {}
        (scenario.get { Path := str "/auth/logout" } [])).2
      = some (str "failed to destroy session: securecookie: hash key is not set") ∧
    (Handler.HandleLogout scenario.lib ⟨scenario.proxy false []⟩ {}
        (scenario.get { Path := str "/auth/logout" } [])).cookies = [] ∧
    (Handler.HandleLogout scenario.lib ⟨scenario.proxy false []⟩ {}
        (scenario.get { Path := str "/auth/logout" } [])).status = some 302 ∧
    (Handler.HandleLogout scenario.lib ⟨scenario.proxy false []⟩ {}
        (scenario.get { Path := str "/auth/logout" } [])).Get (str "Location")
      = some (str "/auth/login") := by
  decide

/-- The script injected for the generic login error: `JSEscapeString` leaves the
message as it is, so the script carries the text `Invalid username or password`
itself, after the escaped login title. -/
theorem configScript_invalid (lib : Lib) (h : Handler) :
    configScript lib h (str "Invalid username or password") =
      str "<script>\n\t\twindow.AUTH_CONFIG = \x7b\n\t\t\ttitle: \"" ++
        template.JSEscapeString lib.JSEscape h.authProxy.config.LoginTitle ++
        str "\",\n\t\t\terror: \"Invalid username or password\"\n\t\t\x7d;\n\t</script>" := by
  have e1 : template.JSEscapeString lib.JSEscape (str "Invalid username or password")
      = str "Invalid username or password" := by
    unfold template.JSEscapeString
    rw [if_neg (by decide)]
  have e2 : str "\",\n\t\t\terror: \"" ++ (str "Invalid username or password" ++
      str "\"\n\t\t\x7d;\n\t</script>")
      = str "\",\n\t\t\terror: \"Invalid username or password\"\n\t\t\x7d;\n\t</script>" := by
    decide
  unfold configScript AuthProxy.GetConfig
  rw [e1]
  simp only [List.append_assoc, e2]

/-- C9: any two POSTs to `/auth/login` that fail `ValidateCredentials`, whichever
field was wrong, get the same response from `HandleLogin`: the login page rendered
with the one message "Invalid username or password", with no cookie added and no
`Location` set.  When the embedded page can be read the status is 200 and, the page
having a `</head>`, the body is the page with the script inserted before it whose
`error` field is the literal text `Invalid username or password`. -/
theorem HandleLogin_failure_uniform (lib : Lib) (h : Handler) (w : http.ResponseWriter)
    (r1 r2 : http.Request) (hm1 : r1.Method ≠ str "GET") (hm2 : r2.Method ≠ str "GET")
    (hv1 : h.authProxy.ValidateCredentials lib (r1.FormValue (str "username"))
      (r1.FormValue (str "password")) = false)
    (hv2 : h.authProxy.ValidateCredentials lib (r2.FormValue (str "username"))
      (r2.FormValue (str "password")) = false) :
    h.HandleLogin lib w r1 = h.HandleLogin lib w r2 ∧
    h.HandleLogin lib w r1 = h.renderLogin lib w (str "Invalid username or password") ∧
    (h.HandleLogin lib w r1).cookies = w.cookies ∧
    (h.HandleLogin lib w r1).Get (str "Location") = w.Get (str "Location") ∧
    (w.status = none → (h.HandleLogin lib w r1).status ≠ some 302) ∧
    (∀ page, lib.indexHTML = .content page →
      (w.status = none → (h.HandleLogin lib w r1).status = some 200) ∧
      (h.HandleLogin lib w r1).body = w.body ++ strings.ReplaceFirst page (str "</head>")
        (str "<script>\n\t\twindow.AUTH_CONFIG = \x7b\n\t\t\ttitle: \"" ++
          template.JSEscapeString lib.JSEscape h.authProxy.config.LoginTitle ++
          str "\",\n\t\t\terror: \"Invalid username or password\"\n\t\t\x7d;\n\t</script>" ++
          str "</head>") ∧
      ((∃ a b, page = a ++ str "</head>" ++ b) →
        ∃ pre post, page = pre ++ str "</head>" ++ post ∧
          (h.HandleLogin lib w r1).body = w.body ++
            (pre ++ (str "<script>\n\t\twindow.AUTH_CONFIG = \x7b\n\t\t\ttitle: \"" ++
              template.JSEscapeString lib.JSEscape h.authProxy.config.LoginTitle ++
              str "\",\n\t\t\terror: \"Invalid username or password\"\n\t\t\x7d;\n\t</script>" ++
              str "</head>") ++ post) ∧
          ∃ before after, (h.HandleLogin lib w r1).body
            = before ++ str "error: \"Invalid username or password\"" ++ after)) := by
  have e1 := HandleLogin_failure_eq lib h w r1 hm1 hv1
  have e2 := HandleLogin_failure_eq lib h w r2 hm2 hv2
  obtain ⟨c1, c2, c3⟩ := renderLogin_spec lib h w (str "Invalid username or password")
  refine ⟨by rw [e1, e2], e1, by rw [e1, c1], by rw [e1, c2], ?_, ?_⟩
  · intro hs
    rw [e1]
    rcases c3 hs with c | c <;> rw [c] <;> decide
  · intro page hp
    have hb : (h.HandleLogin lib w r1).body = w.body ++ strings.ReplaceFirst page (str "</head>")
        (str "<script>\n\t\twindow.AUTH_CONFIG = \x7b\n\t\t\ttitle: \"" ++
          template.JSEscapeString lib.JSEscape h.authProxy.config.LoginTitle ++
          str "\",\n\t\t\terror: \"Invalid username or password\"\n\t\t\x7d;\n\t</script>" ++
          str "</head>") := by
      rw [e1, ← configScript_invalid]
      unfold Handler.renderLogin
      rw [hp]
      simp only []
      rw [http.Write_body]
      rfl
    refine ⟨?_, hb, ?_⟩
    · intro hs
      rw [e1]
      unfold Handler.renderLogin
      rw [hp]
      simp only []
      rw [http.Write_status]
      simp [http.ResponseWriter.Set, hs]
    · intro hocc
      obtain ⟨pre, post, p1, p2⟩ := strings.ReplaceFirst_of_occurs (str "</head>")
        (str "<script>\n\t\twindow.AUTH_CONFIG = \x7b\n\t\t\ttitle: \"" ++
          template.JSEscapeString lib.JSEscape h.authProxy.config.LoginTitle ++
          str "\",\n\t\t\terror: \"Invalid username or password\"\n\t\t\x7d;\n\t</script>" ++
          str "</head>") (by decide) page hocc
      refine ⟨pre, post, p1, by rw [hb, p2], ?_⟩
      have hsplit : str "\",\n\t\t\terror: \"Invalid username or password\"\n\t\t\x7d;\n\t</script>"
          = str "\",\n\t\t\t" ++ (str "error: \"Invalid username or password\"" ++
            str "\n\t\t\x7d;\n\t</script>") := by decide
      refine ⟨w.body ++ (pre ++ (str "<script>\n\t\twindow.AUTH_CONFIG = \x7b\n\t\t\ttitle: \"" ++
          (template.JSEscapeString lib.JSEscape h.authProxy.config.LoginTitle ++
            str "\",\n\t\t\t"))),
        str "\n\t\t\x7d;\n\t</script>" ++ (str "</head>" ++ post), ?_⟩
      rw [hb, p2, hsplit]
      simp only [List.append_assoc]

/-- An unknown user and a known user with a wrong password get the same response:
status 200 and the login page whose script carries the generic message. -/
theorem HandleLogin_failure_uniform_users :
    Handler.HandleLogin scenario.lib ⟨scenario.proxy true []⟩ {}
        (scenario.loginAs (str "mallory") (str "secret"))
      = Handler.HandleLogin scenario.lib ⟨scenario.proxy true []⟩ {}
        (scenario.loginAs (str "admin") (str "wrong")) ∧
    Handler.HandleLogin scenario.lib ⟨scenario.proxy true []⟩ {}
        (scenario.loginAs (str "mallory") (str "secret"))
      = { header := [(str "Content-Type", str "text/html")], cookies := [], status := some 200,
          body := str "<html><head><title>Login</title><script>\n\t\twindow.AUTH_CONFIG = \x7b\n\t\t\ttitle: \"\",\n\t\t\terror: \"Invalid username or password\"\n\t\t\x7d;\n\t</script></head><body></body></html>" } :=
  ⟨(HandleLogin_failure_uniform scenario.lib ⟨scenario.proxy true []⟩ {}
    (scenario.loginAs (str "mallory") (str "secret"))
    (scenario.loginAs (str "admin") (str "wrong")) (by decide) (by decide) (by decide)
    (by decide)).1, by decide!⟩

end handlers

/-! ## Scenarios -/

namespace scenario

open auth sessions handlers

/-- A request with a cookie that decodes to an authenticated session is
authenticated. -/
theorem IsAuthenticated_valid_cookie :
    auth.AuthProxy.IsAuthenticated
      (proxy true [(str "good", [(.string (str "authenticated"), .bool true),
                                 (.string (str "username"), .string (str "admin"))])])
      (get { Path := str "/reports/2024" } [(str "auth-session", str "good")]) = true :=
  (auth.IsAuthenticated_iff _ _).1.mpr
    ⟨str "good", [(.string (str "authenticated"), .bool true),
                  (.string (str "username"), .string (str "admin"))], by decide, rfl, by decide⟩

/-- The gate hands a request with a valid session cookie to the wrapped handler,
once and unchanged. -/
theorem AuthMiddleware_valid_cookie :
    (auth.AuthProxy.AuthMiddleware lib
      (proxy true [(str "good", [(.string (str "authenticated"), .bool true)])])
      (fun w _ => w.Write (str "upstream")) {}
      (get { Path := str "/reports/2024" } [(str "auth-session", str "good")])).calls
      = [({}, get { Path := str "/reports/2024" } [(str "auth-session", str "good")])] :=
  (auth.AuthMiddleware_gate lib _ _ {} _).1.mpr (by decide)

/-- A logout is answered the same way with no cookie, with a valid session cookie
and with a stale one: the expired auth-session cookie is written and the response
is the 302 to `/auth/login`. -/
theorem HandleLogout_expired_cookie :
    (Handler.HandleLogout lib ⟨proxy true []⟩ {} (get { Path := str "/auth/logout" } [])).cookies
      = [NewCookie lib.now (str "auth-session") (str "MTcwMDAwfGVuY29kZWQ=")
          { options with MaxAge := -1 }] ∧
    (Handler.HandleLogout lib
        ⟨proxy true [(str "good", [(.string (str "authenticated"), .bool true)])]⟩ {}
        (get { Path := str "/auth/logout" } [(str "auth-session", str "good")])).cookies
      = [NewCookie lib.now (str "auth-session") (str "MTcwMDAwfGVuY29kZWQ=")
          { options with MaxAge := -1 }] ∧
    (Handler.HandleLogout lib ⟨proxy true []⟩ {}
        (get { Path := str "/auth/logout" } [(str "auth-session", str "stale")])).cookies
      = [NewCookie lib.now (str "auth-session") (str "MTcwMDAwfGVuY29kZWQ=")
          { options with MaxAge := -1 }] ∧
    (Handler.HandleLogout lib ⟨proxy true []⟩ {}
        (get { Path := str "/auth/logout" } [(str "auth-session", str "stale")])).status
      = some 302 ∧
    (Handler.HandleLogout lib ⟨proxy true []⟩ {}
        (get { Path := str "/auth/logout" } [(str "auth-session", str "stale")])).Get
        (str "Location") = some (str "/auth/login") :=
  ⟨((handlers.HandleLogout_redirects lib ⟨proxy true []⟩ {}
      (get { Path := str "/auth/logout" } [])).2.2.2.2.1 (str "MTcwMDAwfGVuY29kZWQ=") rfl).2.1,
   ((handlers.HandleLogout_redirects lib
      ⟨proxy true [(str "good", [(.string (str "authenticated"), .bool true)])]⟩ {}
      (get { Path := str "/auth/logout" } [(str "auth-session", str "good")])).2.2.2.2.1
      (str "MTcwMDAwfGVuY29kZWQ=") rfl).2.1,
   ((handlers.HandleLogout_redirects lib ⟨proxy true []⟩ {}
      (get { Path := str "/auth/logout" } [(str "auth-session", str "stale")])).2.2.2.2.1
      (str "MTcwMDAwfGVuY29kZWQ=") rfl).2.1,
   (handlers.HandleLogout_redirects lib ⟨proxy true []⟩ {}
      (get { Path := str "/auth/logout" } [(str "auth-session", str "stale")])).2.1 rfl,
   (handlers.HandleLogout_redirects lib ⟨proxy true []⟩ {}
      (get { Path := str "/auth/logout" } [(str "auth-session", str "stale")])).1⟩

/-- The redirect built for `/reports/2024?year=2024&q=a b` reads back as that path
and query. -/
theorem redirect_roundtrip_reports :
    (url.Parse lib.parseAuthority (str "/auth/login?redirect=" ++ url.QueryEscape
        (url.URL.String { Path := str "/reports/2024", RawQuery := str "year=2024&q=a b" }))).map
      (fun u => u.Query.Get (str "redirect"))
      = some (url.URL.String { Path := str "/reports/2024", RawQuery := str "year=2024&q=a b" }) :=
  (auth.redirect_roundtrip lib lib.parseAuthority {}
    (get { Path := str "/reports/2024", RawQuery := str "year=2024&q=a b" } [])).2.1

/-- The configured credentials pass the validator. -/
theorem ValidateCredentials_admin :
    auth.AuthProxy.ValidateCredentials lib (proxy true []) (str "admin") (str "secret") = true :=
  (auth.ValidateCredentials_iff lib (proxy true []) (str "admin") (str "secret")).1.mpr
    ⟨rfl, Or.inr ⟨rfl, rfl⟩⟩

end scenario

/-! ## The library model on documented examples -/

/-- The model of `path.Clean` on the examples of its documentation. -/
theorem path_Clean_examples :
    path.Clean (str "a/c") = str "a/c" ∧
    path.Clean (str "a//c") = str "a/c" ∧
    path.Clean (str "a/c/.") = str "a/c" ∧
    path.Clean (str "a/c/b/..") = str "a/c" ∧
    path.Clean (str "/../a/c") = str "/a/c" ∧
    path.Clean (str "/../a/b/../././/c") = str "/a/c" ∧
    path.Clean [] = str "." ∧
    path.Clean (str "a/../../b") = str "../b" ∧
    path.Clean (str "/auth/login") = str "/auth/login" := by
  decide

/-- The model of `url.QueryEscape` and `url.QueryUnescape` on known values. -/
theorem url_escape_examples :
    url.QueryEscape (str "my/cool+blog&about,stuff") = str "my%2Fcool%2Bblog%26about%2Cstuff" ∧
    url.QueryEscape (str "/reports/2024") = str "%2Freports%2F2024" ∧
    url.QueryEscape (str "a b&c=d") = str "a+b%26c%3Dd" ∧
    url.QueryUnescape (str "a+b%26c%3Dd") = some (str "a b&c=d") ∧
    url.QueryUnescape (str "a%2") = none := by
  decide

/-- The model of `url.Parse` and `URL.String` on known values. -/
theorem url_Parse_examples :
    (url.Parse scenario.lib.parseAuthority (str "https://evil.example/phish")).map
        (fun u => (u.Scheme, u.Host, u.Path))
      = some (str "https", str "evil.example", str "/phish") ∧
    (url.Parse scenario.lib.parseAuthority (str "//evil.example/x")).map
        (fun u => (u.Scheme, u.Host, u.Path)) = some ([], str "evil.example", str "/x") ∧
    (url.Parse scenario.lib.parseAuthority (str "/dashboard?tab=1#top")).map
        (fun u => (u.Path, u.RawQuery, u.Fragment))
      = some (str "/dashboard", str "tab=1", str "top") ∧
    url.Parse scenario.lib.parseAuthority (str "a:b/c") = some { Scheme := str "a", Opaque := str "b/c" } ∧
    url.Parse scenario.lib.parseAuthority (str ":x") = none ∧
    url.URL.String { Scheme := str "http", Host := str "h", Path := str "/x y" }
      = str "http://h/x%20y" ∧
    url.URL.String { Path := str "/x y", RawQuery := str "a=1" } = str "/x%20y?a=1" ∧
    url.URL.String { Path := str "a:b/c" } = str "./a:b/c" := by
  decide

/-- The model of the `Location` of `http.Redirect` on known values: relative
targets are resolved against the request path and cleaned, targets with a scheme or
a host are kept. -/
theorem http_redirectURL_examples :
    http.redirectURL scenario.lib.parseAuthority (scenario.login [] []) (str "dashboard?x=1")
      = str "/auth/dashboard?x=1" ∧
    http.redirectURL scenario.lib.parseAuthority (scenario.login [] []) (str "/a/../b//c/")
      = str "/b/c/" ∧
    http.redirectURL scenario.lib.parseAuthority (scenario.login [] []) (str "//evil.example/x")
      = str "//evil.example/x" ∧
    http.redirectURL scenario.lib.parseAuthority (scenario.login [] [])
        (str "https://evil.example/phish") = str "https://evil.example/phish" := by
  decide
